import Mathlib

/-!
Shallow embedding of `src/fn-scheduler/app/server/scheduler_service.py`.

Modelling conventions used throughout this development:

* Instants (`datetime` values) are modelled as natural numbers counting
  seconds in the proleptic Gregorian calendar, with second `0` at
  0001-01-01 00:00:00 (day ordinal 1, the ordinal used by
  `datetime.toordinal`).  The ISO text stored in the database
  (`isoformat`) is a strictly monotone encoding of such instants, so the
  SQL string comparisons on `next_run_at` are modelled as numeric
  comparisons on seconds.
* The cron evaluator works minute by minute; a minute counter `M`
  denotes the instant `M * 60` seconds.
* Python exceptions that callers catch (`ValueError` and the runtime
  failures of the executor) are modelled by `Except String`.
-/

namespace FnScheduler

/-! ## Civil calendar (the part of `datetime` the code relies on)

`civil_from_ordinal` converts a day ordinal (1 = 0001-01-01, as in
`datetime.toordinal`) to `(year, month, day)`; it is the standard
era-based Gregorian conversion, restricted to ordinals >= 1 so all
arithmetic stays in `Nat`.  `ordinal_from_civil` is its inverse and is
used to build concrete instants in examples. -/

def civil_from_ordinal (ordinal : Nat) : Nat × Nat × Nat :=
  let z := ordinal + 305
  let era := z / 146097
  let doe := z % 146097
  let yoe := (doe - doe / 1460 + doe / 36524 - doe / 146096) / 365
  let doy := doe - (365 * yoe + yoe / 4 - yoe / 100)
  let mp := (5 * doy + 2) / 153
  let d := doy - (153 * mp + 2) / 5 + 1
  let m := if mp < 10 then mp + 3 else mp - 9
  (if mp < 10 then yoe + era * 400 else yoe + era * 400 + 1, m, d)

def ordinal_from_civil (y m d : Nat) : Nat :=
  let yAdj := if m ≤ 2 then y - 1 else y
  let era := yAdj / 400
  let yoe := yAdj % 400
  let mp := if 2 < m then m - 3 else m + 9
  let doy := (153 * mp + 2) / 5 + d - 1
  let doe := yoe * 365 + yoe / 4 - yoe / 100 + doy
  era * 146097 + doe - 305

/-- Day ordinal of the minute counter `M` (minutes since 0001-01-01 00:00). -/
def dayOrdinalOfMinutes (M : Nat) : Nat := M / 1440 + 1

/-- `datetime.minute` of a minute counter. -/
def minuteOfMinutes (M : Nat) : Nat := M % 60

/-- `datetime.hour` of a minute counter. -/
def hourOfMinutes (M : Nat) : Nat := M / 60 % 24

/-- `datetime.day` of a minute counter. -/
def dayOfMinutes (M : Nat) : Nat := (civil_from_ordinal (dayOrdinalOfMinutes M)).2.2

/-- `datetime.month` of a minute counter. -/
def monthOfMinutes (M : Nat) : Nat := (civil_from_ordinal (dayOrdinalOfMinutes M)).2.1

/-- `datetime.weekday()` of a minute counter: 0 = Monday .. 6 = Sunday.
Ordinal 1 (0001-01-01) is a Monday, so the weekday is
`(ordinal - 1) % 7 = (M / 1440) % 7`. -/
def weekdayOfMinutes (M : Nat) : Nat := M / 1440 % 7

/-- Build a minute counter from a civil date and a time of day. -/
def minutesOfCivil (y mo d h mi : Nat) : Nat :=
  (ordinal_from_civil y mo d - 1) * 1440 + h * 60 + mi

/-! ## Python string helpers used by the cron parser and the store

These mirror the Python `str` operations the code uses.  They are
written by structural recursion over the character list of the string
(rather than through the byte-position-based core `String` API) so that
every concrete witness evaluates inside the kernel. -/

/-- Split a character list at every character satisfying `p`,
Python-style: `"a,,b".split(",") = ["a", "", "b"]`. -/
def splitPredAux (p : Char → Bool) : List Char → List Char → List (List Char)
  | [], acc => [acc.reverse]
  | x :: xs, acc =>
    if p x then acc.reverse :: splitPredAux p xs []
    else splitPredAux p xs (x :: acc)

/-- Python `s.split(c)` for a one-character separator. -/
def splitChar (s : String) (c : Char) : List String :=
  (splitPredAux (fun x => x == c) s.data []).map String.mk

/-- Python `s.split(",")`. -/
def pySplitComma (s : String) : List String := splitChar s ','

/-- Python `s.split(c, 1)` when `c` occurs in `s`: the part before the
first occurrence and everything after it. -/
def splitFirstAux (c : Char) : List Char → List Char → List Char × List Char
  | [], acc => (acc.reverse, [])
  | x :: xs, acc =>
    if x == c then (acc.reverse, xs) else splitFirstAux c xs (x :: acc)

def pySplitOnce (s : String) (c : Char) : String × String :=
  let p := splitFirstAux c s.data []
  (String.mk p.1, String.mk p.2)

/-- Python `s.strip()`: drop surrounding whitespace. -/
def pyStrip (s : String) : String :=
  String.mk (((s.data.dropWhile Char.isWhitespace).reverse.dropWhile
    Char.isWhitespace).reverse)

/-- A non-empty all-digit character list read as a decimal number
(Python `str.isdigit` plus `int`). -/
def digitsToNat? (l : List Char) : Option Nat :=
  if l ≠ [] ∧ l.all Char.isDigit then
    some (l.foldl (fun n c => n * 10 + (c.toNat - 48)) 0)
  else none

/-- Python `int(s)` restricted to `s.isdigit()` inputs. -/
def pyNat? (s : String) : Option Nat := digitsToNat? s.data

/-- Python `int(s)` for the strings the cron parser feeds it: optional
surrounding whitespace, an optional sign, then decimal digits. -/
def pyInt? (s : String) : Option Int :=
  match (pyStrip s).data with
  | '-' :: rest => (digitsToNat? rest).map (fun n => -(n : Int))
  | '+' :: rest => (digitsToNat? rest).map Int.ofNat
  | l => (digitsToNat? l).map Int.ofNat

/-- Python `str.split()` (no argument): split on whitespace runs,
dropping empty pieces. -/
def pySplitWhitespace (s : String) : List String :=
  ((splitPredAux Char.isWhitespace s.data []).filter (fun p => p ≠ [])).map String.mk

/-- Python `c in s` for a one-character needle. -/
def pyContainsChar (s : String) (c : Char) : Bool := s.data.contains c

/-! ## Cron expression evaluator (`class CronExpression`) -/

/-- One entry of `CronExpression.FIELD_SPECS`. -/
structure FieldSpec where
  name : String
  minValue : Nat
  maxValue : Nat
  span : Nat
deriving DecidableEq, Repr

def minuteSpec : FieldSpec := ⟨"minute", 0, 59, 60⟩
def hourSpec : FieldSpec := ⟨"hour", 0, 23, 24⟩
def daySpec : FieldSpec := ⟨"day", 1, 31, 31⟩
def monthSpec : FieldSpec := ⟨"month", 1, 12, 12⟩
def weekdaySpec : FieldSpec := ⟨"weekday", 0, 6, 7⟩

/-- Parsed cron expression: the five expanded value lists
(`self.fields`) and the five wildcard flags (`self._wildcards`). -/
structure CronExpression where
  minute_field : List Nat
  hour_field : List Nat
  day_field : List Nat
  month_field : List Nat
  weekday_field : List Nat
  minute_wildcard : Bool
  hour_wildcard : Bool
  day_wildcard : Bool
  month_wildcard : Bool
  weekday_wildcard : Bool
deriving DecidableEq, Repr

/-! A Python `set[int]` is modelled canonically as a strictly sorted
list, so that `sorted(values)` at the end of `_expand_field` is the
identity and every operation evaluates inside the kernel. -/

/-- Insert into a strictly sorted list, keeping it strictly sorted. -/
def setInsert (v : Nat) : List Nat → List Nat
  | [] => [v]
  | x :: xs =>
    if v < x then v :: x :: xs
    else if v = x then x :: xs
    else x :: setInsert v xs

/-- `values.update(contrib)` for canonical sets. -/
def setUnion (l : List Nat) (contrib : List Nat) : List Nat :=
  contrib.foldl (fun acc v => setInsert v acc) l

/-- The canonical set of an arbitrary list. -/
def setOfList (l : List Nat) : List Nat := setUnion [] l

namespace CronExpression

/-- `CronExpression._expand_range`. -/
def expand_range (item : String) (minValue maxValue : Nat) : Except String (List Nat) :=
  if item = "*" then .ok (List.range' minValue (maxValue + 1 - minValue))
  else match pyNat? item with
  | some n => .ok [n]
  | none =>
    if pyContainsChar item '-' then
      let p := pySplitOnce item '-'
      match pyInt? p.1, pyInt? p.2 with
      | some start, some stop =>
        if start > stop then .error "Cron range start greater than end"
        else .ok (List.range' start.toNat (stop.toNat + 1 - start.toNat))
      | _, _ => .error "invalid literal for int"
    else .error "Unsupported cron token"

/-- `raw_item.strip() or "*"` from `_expand_field`. -/
def normalizeItem (raw : String) : String :=
  if pyStrip raw = "" then "*" else pyStrip raw

/-- The values contributed to the field set by one comma-separated
segment: strip, apply the optional `/step` suffix, expand, and keep
values whose offset from the first expanded value is a multiple of the
step. -/
def expand_item (spec : FieldSpec) (raw : String) : Except String (List Nat) := do
  let originalItem := normalizeItem raw
  let (item, step) ←
    if pyContainsChar originalItem '/' then
      let p := pySplitOnce originalItem '/'
      match pyInt? p.2 with
      | none => Except.error "invalid literal for int"
      | some st =>
        if st ≤ 0 then Except.error ("Invalid step for " ++ spec.name)
        else Except.ok (if p.1 = "" then "*" else p.1, st)
    else Except.ok (originalItem, (1 : Int))
  let expanded ← expand_range item spec.minValue spec.maxValue
  if expanded = [] then Except.error ("Invalid " ++ spec.name ++ " segment: " ++ item)
  else
    let startVal := expanded.headD 0
    Except.ok (expanded.filter
      (fun (v : Nat) => Int.emod ((v : Int) - (startVal : Int)) step == 0))

/-- `original_item == "*"`, the per-segment contribution to the wildcard
flag (an empty segment strips to `*`). -/
def isStarItem (raw : String) : Bool := normalizeItem raw == "*"

/-- The accumulation loop of `_expand_field` over the comma-separated
segments. -/
def expand_field_loop (spec : FieldSpec) :
    List String → List Nat → Bool → Except String (List Nat × Bool)
  | [], values, wildcard => .ok (values, wildcard)
  | raw :: rest, values, wildcard => do
    let contrib ← expand_item spec raw
    expand_field_loop spec rest (setUnion values contrib) (wildcard || isStarItem raw)

/-- `CronExpression._expand_field`: returns the sorted value list and
the wildcard flag `wildcard or full_span`.  The set is kept canonically
sorted throughout, so the final `sorted(values)` is the set itself. -/
def expand_field (token : String) (spec : FieldSpec) : Except String (List Nat × Bool) := do
  let (values, wildcard) ← expand_field_loop spec (pySplitComma token) [] false
  if values = [] then Except.error ("No values computed for " ++ spec.name)
  else
    let values := if spec.name = "weekday"
      then setOfList (values.map (fun v => if v = 7 then 0 else v)) else values
    if ∀ v ∈ values, spec.minValue ≤ v ∧ v ≤ spec.maxValue then
      Except.ok (values, wildcard || (values.length == spec.span))
    else Except.error (spec.name ++ " values out of range")

/-- `CronExpression.__init__`: split into exactly five fields and expand
each against its spec. -/
def parse (expression : String) : Except String CronExpression :=
  match pySplitWhitespace expression with
  | [p0, p1, p2, p3, p4] => do
    let f0 ← expand_field p0 minuteSpec
    let f1 ← expand_field p1 hourSpec
    let f2 ← expand_field p2 daySpec
    let f3 ← expand_field p3 monthSpec
    let f4 ← expand_field p4 weekdaySpec
    .ok ⟨f0.1, f1.1, f2.1, f3.1, f4.1, f0.2, f1.2, f2.2, f3.2, f4.2⟩
  | _ => .error "Cron expression must contain 5 fields"

/-- The calendar combination at the end of `CronExpression._matches`. -/
def calendar_ok (dom_wildcard dow_wildcard dom_match dow_match : Bool) : Bool :=
  if dom_wildcard && dow_wildcard then true
  else if dom_wildcard then dow_match
  else if dow_wildcard then dom_match
  else dom_match || dow_match

/-- `CronExpression._matches` on a minute counter. -/
def matchesAt (e : CronExpression) (M : Nat) : Bool :=
  decide (minuteOfMinutes M ∈ e.minute_field) &&
  decide (hourOfMinutes M ∈ e.hour_field) &&
  decide (monthOfMinutes M ∈ e.month_field) &&
  calendar_ok e.day_wildcard e.weekday_wildcard
    (decide (dayOfMinutes M ∈ e.day_field))
    (decide (weekdayOfMinutes M ∈ e.weekday_field))

/-- `MAX_LOOKAHEAD_MINUTES = 60 * 24 * 366`. -/
def MAX_LOOKAHEAD_MINUTES : Nat := 60 * 24 * 366

def lookaheadError : String := "Unable to compute next run within lookahead window"

/-- The candidate loop of `next_after`: advance minute by minute,
checking at most `fuel` candidates. -/
def next_after_loop (e : CronExpression) : Nat → Nat → Except String Nat
  | _, 0 => .error lookaheadError
  | candidate, fuel + 1 =>
    if e.matchesAt (candidate + 1) then .ok (candidate + 1)
    else next_after_loop e (candidate + 1) fuel

/-- `CronExpression.next_after` on an instant in seconds: truncate to
the minute and search; the result is again an instant in seconds. -/
def next_after (e : CronExpression) (moment : Nat) : Except String Nat :=
  (next_after_loop e (moment / 60) MAX_LOOKAHEAD_MINUTES).map (· * 60)

end CronExpression

/-! ## Store data model (`class Database`)

Rows mirror the sqlite schema of `_create_schema`.  Timestamps are
instants in seconds (see the header note); `next_run_at` is always
minute-aligned when written by the scheduler.  The autoincrement
counters `next_task_id` / `next_result_id` model sqlite AUTOINCREMENT
row ids. -/

structure TaskRow where
  id : Nat
  name : String
  account : String
  trigger_type : String
  schedule_expression : Option String
  condition_script : Option String
  condition_interval : Int
  event_type : String
  is_active : Bool
  pre_task_ids : List Int
  script_body : String
  last_run_at : Option Nat
  next_run_at : Option Nat
  last_condition_check_at : Option Nat
  created_at : Nat
  updated_at : Nat
deriving DecidableEq, Repr

structure ResultRow where
  id : Nat
  task_id : Nat
  status : String
  trigger_reason : String
  started_at : Nat
  finished_at : Option Nat
  log : Option String
deriving DecidableEq, Repr

structure Db where
  tasks : List TaskRow
  results : List ResultRow
  next_task_id : Nat
  next_result_id : Nat
deriving DecidableEq, Repr

namespace Database

/-- `Database.get_task`. -/
def get_task (db : Db) (task_id : Nat) : Option TaskRow :=
  db.tasks.find? (fun t => t.id == task_id)

/-- `Database.get_latest_result`: `ORDER BY started_at DESC LIMIT 1`.
The covering index is ordered by `started_at DESC` then ascending row
id, so among rows sharing the maximal `started_at` the smallest id is
returned; the fold below (in insertion = id order, replacing the
candidate only on a strictly larger `started_at`) realizes exactly
that choice. -/
def get_latest_result (db : Db) (task_id : Int) : Option ResultRow :=
  (db.results.filter (fun r => (r.task_id : Int) == task_id)).foldl
    (fun acc r =>
      match acc with
      | none => some r
      | some c => if r.started_at > c.started_at then some r else some c)
    none

/-- `Database.has_running_instance`. -/
def has_running_instance (db : Db) (task_id : Nat) : Bool :=
  db.results.any (fun r => r.task_id == task_id && r.status == "running")

/-- `Database.record_result_start`: insert a `running` row and return
its id. -/
def record_result_start (db : Db) (task_id : Nat) (trigger_reason : String)
    (now : Nat) : Db × Nat :=
  ({ db with
      results := db.results ++
        [{ id := db.next_result_id, task_id := task_id, status := "running",
           trigger_reason := trigger_reason, started_at := now,
           finished_at := none, log := none }],
      next_result_id := db.next_result_id + 1 },
   db.next_result_id)

/-- `Database.finalize_result`. -/
def finalize_result (db : Db) (result_id : Nat) (status : String)
    (log_text : String) (now : Nat) : Db :=
  { db with
    results := db.results.map (fun r =>
      if r.id == result_id then
        { r with status := status, finished_at := some now, log := some log_text }
      else r) }

/-- `Database.update_last_run`. -/
def update_last_run (db : Db) (task_id : Nat) (now : Nat) : Db :=
  { db with
    tasks := db.tasks.map (fun t =>
      if t.id == task_id then { t with last_run_at := some now, updated_at := now }
      else t) }

/-- `Database.update_condition_check`. -/
def update_condition_check (db : Db) (task_id : Nat) (now : Nat) : Db :=
  { db with
    tasks := db.tasks.map (fun t =>
      if t.id == task_id then
        { t with last_condition_check_at := some now, updated_at := now }
      else t) }

/-- `Database.schedule_next_run`: recompute `next_run_at` from `base`
through the cron evaluator and persist it.  A missing or empty
expression is a no-op (`if not expression: return None`); parse or
lookahead failures propagate as exceptions. -/
def schedule_next_run (db : Db) (task_id : Nat) (expression : Option String)
    (base : Nat) (now : Nat) : Except String Db :=
  match expression with
  | none => .ok db
  | some expr =>
    if expr = "" then .ok db
    else do
      let cron ← CronExpression.parse expr
      let next ← cron.next_after base
      .ok { db with
        tasks := db.tasks.map (fun t =>
          if t.id == task_id then
            { t with next_run_at := some next, updated_at := now }
          else t) }

/-- `Database.fetch_due_tasks`: schedule-triggered, active, non-null
`next_run_at <= moment`, `ORDER BY next_run_at ASC`.  The plain sqlite
sort has no secondary key; it is modelled as a stable insertion sort
applied to the rows in stored (rowid) order, which is the engine's
observed behaviour for ties. -/
def fetch_due_tasks (db : Db) (moment : Nat) : List TaskRow :=
  List.insertionSort
    (fun a b => a.next_run_at.getD 0 ≤ b.next_run_at.getD 0)
    (db.tasks.filter (fun t =>
      t.trigger_type == "schedule" && t.is_active &&
      t.next_run_at.isSome && t.next_run_at.getD 0 ≤ moment))

/-- `Database.fetch_event_tasks`: event-triggered, active, optionally
filtered by event type, `ORDER BY id ASC`. -/
def fetch_event_tasks (db : Db) (event_type : Option String) : List TaskRow :=
  List.insertionSort (fun a b => a.id ≤ b.id)
    (db.tasks.filter (fun t =>
      t.trigger_type == "event" && t.is_active &&
      (match event_type with
       | some et => t.event_type == et
       | none => true)))

end Database

/-! ## Account policy (`list_allowed_accounts`, `ensure_account_allowed`)

The host environment (`POSIX_ACCOUNT_SUPPORT`, the passwd/group
enumeration, `DEFAULT_ACCOUNT_NAME`) is a parameter of the model. -/

structure HostEnv where
  posix_account_support : Bool
  /-- On POSIX hosts: the sorted set of account names whose primary or
  supplemental group id lies in `ALLOWED_ACCOUNT_GIDS`. -/
  posix_allowed_accounts : List String
  default_account_name : String
deriving DecidableEq, Repr

def list_allowed_accounts (env : HostEnv) : List String :=
  if ¬ env.posix_account_support then
    if env.default_account_name ≠ "" then [env.default_account_name] else []
  else env.posix_allowed_accounts

def noPosixAccountsError : String := "系统中未找到属于 0/1000/1001 组的账号"
def noDefaultAccountError : String := "当前系统无法确定默认账号"
def windowsAccountError (defaultAccount : String) : String :=
  "Windows 环境仅支持使用账号 " ++ defaultAccount
def accountGroupError : String := "账号必须属于系统组 0/1000/1001 的成员"

def ensure_account_allowed (env : HostEnv) (account : String) : Except String String :=
  let allowed := list_allowed_accounts env
  if allowed = [] then
    if env.posix_account_support then .error noPosixAccountsError
    else .error noDefaultAccountError
  else if ¬ env.posix_account_support then
    let defaultAccount := allowed.headD ""
    if account ≠ "" ∧ account ≠ defaultAccount then
      .error (windowsAccountError defaultAccount)
    else .ok defaultAccount
  else if account ∉ allowed then .error accountGroupError
  else .ok account

/-! ## Task payloads and validation (`Database._prepare_task_payload`)

A JSON payload field is absent, null, or carries a value; `update_task`
merges `{**existing, **payload}` field by field, so absence and null
must be distinguished. -/

inductive JValue (α : Type) where
  | absent
  | null
  | val (a : α)
deriving DecidableEq, Repr

/-- The two JSON shapes `pre_task_ids` accepts: an array of integers or
a string that decodes to one. -/
inductive PreTaskIdsValue where
  | ints (l : List Int)
  | text (s : String)
deriving DecidableEq, Repr

structure TaskPayload where
  id : JValue Int
  name : JValue String
  account : JValue String
  trigger_type : JValue String
  schedule_expression : JValue String
  condition_script : JValue String
  condition_interval : JValue Int
  event_type : JValue String
  is_active : JValue Bool
  pre_task_ids : JValue PreTaskIdsValue
  script_body : JValue String
  last_run_at : JValue Nat
  next_run_at : JValue Nat
  last_condition_check_at : JValue Nat
deriving DecidableEq, Repr

/-- The payload with every field absent. -/
def emptyPayload : TaskPayload :=
  ⟨.absent, .absent, .absent, .absent, .absent, .absent, .absent,
   .absent, .absent, .absent, .absent, .absent, .absent, .absent⟩

/-- Modelled from the spec (external collaborator `json.loads`): a
minimal JSON parser for arrays of integers, the only shape the
`pre_task_ids` string form is specified to decode to; any other text
fails like a `JSONDecodeError`. -/
def jsonIntList? (s : String) : Option (List Int) :=
  match (pyStrip s).data with
  | '[' :: rest =>
    match rest.reverse with
    | ']' :: revInner =>
      let inner := pyStrip (String.mk revInner.reverse)
      if inner = "" then some []
      else
        (pySplitComma inner).foldr
          (fun piece acc => do
            let l ← acc
            let n ← pyInt? piece
            pure (n :: l))
          (some [])
    | _ => none
  | _ => none

/-- The normalization loop over `pre_task_ids`: skip the current id,
keep first occurrences. -/
def clean_pre_ids_loop (current_id : Option Int) :
    List Int → List Int → List Int
  | [], cleaned => cleaned
  | tid :: rest, cleaned =>
    if current_id = some tid then clean_pre_ids_loop current_id rest cleaned
    else if tid ∈ cleaned then clean_pre_ids_loop current_id rest cleaned
    else clean_pre_ids_loop current_id rest (cleaned ++ [tid])

def clean_pre_ids (current_id : Option Int) (ids : List Int) : List Int :=
  clean_pre_ids_loop current_id ids []

/-- `payload.get("pre_task_ids") or []` followed by the JSON-string
decoding step. -/
def decoded_pre_ids (payload : TaskPayload) : Except String (List Int) :=
  match payload.pre_task_ids with
  | .absent => .ok []
  | .null => .ok []
  | .val (.ints l) => .ok l
  | .val (.text s) =>
    if s = "" then .ok []
    else match jsonIntList? s with
      | some l => .ok l
      | none => .error "前置任务格式错误"

/-- The validated dictionary `_prepare_task_payload` returns. -/
structure PreparedTask where
  name : String
  account : String
  trigger_type : String
  schedule_expression : Option String
  condition_script : Option String
  condition_interval : Int
  event_type : String
  is_active : Bool
  pre_task_ids : List Int
  script_body : String
  last_run_at : Option Nat
  next_run_at : Option Nat
  last_condition_check_at : Option Nat
deriving DecidableEq, Repr

def EVENT_TYPE_SCRIPT : String := "script"
def EVENT_TYPE_BOOT : String := "system_boot"
def EVENT_TYPE_SHUTDOWN : String := "system_shutdown"
def EVENT_TYPES : List String := [EVENT_TYPE_SCRIPT, EVENT_TYPE_BOOT, EVENT_TYPE_SHUTDOWN]

/-- `payload.get(key, default)` for string fields that are immediately
stripped: a null value raises (modelled as an error), absence yields the
default. -/
def stripOrDefault (v : JValue String) (dflt : String) : Except String String :=
  match v with
  | .absent => .ok (pyStrip dflt)
  | .null => .error "TypeError: cannot strip None"
  | .val s => .ok (pyStrip s)

/-- `payload.get("id")` as used for the self-reference filter. -/
def current_task_id (payload : TaskPayload) : Option Int :=
  match payload.id with
  | .absent => none
  | .null => none
  | .val i => some i

/-- `payload.get(key)` followed by `.strip()` when the value is a
string: absent and null both read back as `None`. -/
def optStr (v : JValue String) : Option String :=
  match v with
  | .absent => none
  | .null => none
  | .val s => some (pyStrip s)

/-- `payload.get(key)` for a nullable timestamp column. -/
def optNat (v : JValue Nat) : Option Nat :=
  match v with
  | .absent => none
  | .null => none
  | .val n => some n

/-- `bool(payload.get("is_active", True))`: `bool(None)` is false. -/
def boolOrDefault (v : JValue Bool) : Bool :=
  match v with
  | .absent => true
  | .null => false
  | .val b => b

/-- `int(payload.get(key, default))`: `int(None)` raises. -/
def intOrDefault (v : JValue Int) (dflt : Int) : Except String Int :=
  match v with
  | .absent => .ok dflt
  | .null => .error "TypeError: int of None"
  | .val i => .ok i

/-- `(payload.get("event_type") or "script")`, stripped when it is a
string. -/
def eventTypeOf (v : JValue String) : String :=
  match v with
  | .absent => EVENT_TYPE_SCRIPT
  | .null => EVENT_TYPE_SCRIPT
  | .val s => if s = "" then EVENT_TYPE_SCRIPT else pyStrip s

/-- The second half of `Database._prepare_task_payload`: everything
after the name/account/script checks, given the already-validated
`trigger_type`, `name`, `account` and `script_body`. -/
def prepare_task_fields (trigger_type name account script_body : String)
    (payload : TaskPayload) (is_update : Bool) (now : Nat) :
    Except String PreparedTask := do
  let is_active := boolOrDefault payload.is_active
  let schedule_expression : Option String := optStr payload.schedule_expression
  let condition_script0 : Option String := optStr payload.condition_script
  let condition_interval0 ← intOrDefault payload.condition_interval 60
  let condition_interval := max 10 condition_interval0
  let event_type0 := eventTypeOf payload.event_type
  let rawPre ← decoded_pre_ids payload
  let pre_task_ids := clean_pre_ids (current_task_id payload) rawPre
  let next_run_at0 : Option Nat := optNat payload.next_run_at
  let last_run_at : Option Nat := optNat payload.last_run_at
  let last_condition_check_at0 : Option Nat := optNat payload.last_condition_check_at
  if trigger_type = "schedule" then
    match schedule_expression with
    | none => Except.error "定时任务需要 Cron 表达式"
    | some expr =>
      if expr = "" then Except.error "定时任务需要 Cron 表达式" else do
      let cron ← CronExpression.parse expr
      let next_run_at ←
        if ¬ is_update ∨ next_run_at0 = none then do
          let nxt ← cron.next_after now
          pure (some nxt)
        else pure next_run_at0
      let out : PreparedTask :=
        { name := name, account := account, trigger_type := trigger_type,
          schedule_expression := some expr, condition_script := none,
          condition_interval := condition_interval,
          event_type := EVENT_TYPE_SCRIPT, is_active := is_active,
          pre_task_ids := pre_task_ids, script_body := script_body,
          last_run_at := last_run_at, next_run_at := next_run_at,
          last_condition_check_at := last_condition_check_at0 }
      Except.ok out
  else
    if event_type0 ∉ EVENT_TYPES then Except.error "事件类型不支持" else
    if event_type0 = EVENT_TYPE_SCRIPT then
      match condition_script0 with
      | none => Except.error "事件任务需要条件脚本"
      | some cs =>
        if cs = "" then Except.error "事件任务需要条件脚本"
        else
          let out : PreparedTask :=
            { name := name, account := account, trigger_type := trigger_type,
              schedule_expression := none, condition_script := some cs,
              condition_interval := condition_interval,
              event_type := event_type0, is_active := is_active,
              pre_task_ids := pre_task_ids, script_body := script_body,
              last_run_at := last_run_at, next_run_at := next_run_at0,
              last_condition_check_at := last_condition_check_at0 }
          Except.ok out
    else
      let out : PreparedTask :=
        { name := name, account := account, trigger_type := trigger_type,
          schedule_expression := none, condition_script := none,
          condition_interval := condition_interval,
          event_type := event_type0, is_active := is_active,
          pre_task_ids := pre_task_ids, script_body := script_body,
          last_run_at := last_run_at, next_run_at := next_run_at0,
          last_condition_check_at := none }
      Except.ok out

/-- `payload.get("trigger_type", "schedule")` with the membership
check. -/
def triggerTypeOf (v : JValue String) : Except String String :=
  match v with
  | .absent => .ok "schedule"
  | .null => .error "trigger_type must be schedule or event"
  | .val s =>
    if s = "schedule" ∨ s = "event" then .ok s
    else .error "trigger_type must be schedule or event"

/-- `Database._prepare_task_payload`.  `now` stands for the
`time_now()` calls made while validating. -/
def prepare_task_payload (env : HostEnv) (payload : TaskPayload)
    (is_update : Bool) (now : Nat) : Except String PreparedTask := do
  let trigger_type ← triggerTypeOf payload.trigger_type
  let name ← stripOrDefault payload.name ""
  let account0 ← stripOrDefault payload.account ""
  let account1 :=
    if account0 = "" ∧ ¬ env.posix_account_support then env.default_account_name
    else account0
  if name = "" then Except.error "任务名称必填" else
  if account1 = "" then Except.error "账号必填" else do
  let account ← ensure_account_allowed env account1
  let script_body ← stripOrDefault payload.script_body ""
  if script_body = "" then Except.error "任务内容不能为空" else
  prepare_task_fields trigger_type name account script_body payload is_update now

namespace Database

/-- `Database.create_task`: validate, insert with a fresh autoincrement
id, return the stored row. -/
def create_task (env : HostEnv) (db : Db) (payload : TaskPayload)
    (now : Nat) : Except String (Db × TaskRow) := do
  let task ← prepare_task_payload env payload false now
  let row : TaskRow :=
    { id := db.next_task_id, name := task.name, account := task.account,
      trigger_type := task.trigger_type,
      schedule_expression := task.schedule_expression,
      condition_script := task.condition_script,
      condition_interval := task.condition_interval,
      event_type := task.event_type, is_active := task.is_active,
      pre_task_ids := task.pre_task_ids, script_body := task.script_body,
      last_run_at := task.last_run_at, next_run_at := task.next_run_at,
      last_condition_check_at := task.last_condition_check_at,
      created_at := now, updated_at := now }
  .ok ({ db with tasks := db.tasks ++ [row], next_task_id := db.next_task_id + 1 },
       row)

/-- `_row_to_dict(existing)` viewed as a payload: every column becomes a
present field (null for NULL columns); in particular `id` is the row's
own id. -/
def rowToPayload (t : TaskRow) : TaskPayload where
  id := .val (t.id : Int)
  name := .val t.name
  account := .val t.account
  trigger_type := .val t.trigger_type
  schedule_expression :=
    match t.schedule_expression with
    | some s => .val s
    | none => .null
  condition_script :=
    match t.condition_script with
    | some s => .val s
    | none => .null
  condition_interval := .val t.condition_interval
  event_type := .val t.event_type
  is_active := .val t.is_active
  pre_task_ids := .val (.ints t.pre_task_ids)
  script_body := .val t.script_body
  last_run_at :=
    match t.last_run_at with
    | some n => .val n
    | none => .null
  next_run_at :=
    match t.next_run_at with
    | some n => .val n
    | none => .null
  last_condition_check_at :=
    match t.last_condition_check_at with
    | some n => .val n
    | none => .null

/-- `{**existing, **payload}`: the client field wins whenever present
(including an explicit null). -/
def mergeField {α : Type} (existing client : JValue α) : JValue α :=
  match client with
  | .absent => existing
  | v => v

def mergePayload (existing client : TaskPayload) : TaskPayload where
  id := mergeField existing.id client.id
  name := mergeField existing.name client.name
  account := mergeField existing.account client.account
  trigger_type := mergeField existing.trigger_type client.trigger_type
  schedule_expression := mergeField existing.schedule_expression client.schedule_expression
  condition_script := mergeField existing.condition_script client.condition_script
  condition_interval := mergeField existing.condition_interval client.condition_interval
  event_type := mergeField existing.event_type client.event_type
  is_active := mergeField existing.is_active client.is_active
  pre_task_ids := mergeField existing.pre_task_ids client.pre_task_ids
  script_body := mergeField existing.script_body client.script_body
  last_run_at := mergeField existing.last_run_at client.last_run_at
  next_run_at := mergeField existing.next_run_at client.next_run_at
  last_condition_check_at := mergeField existing.last_condition_check_at client.last_condition_check_at

/-- `Database.update_task`: merge the partial payload over the existing
row, re-validate, write back.  A changed schedule expression clears
`next_run_at` so validation recomputes it from now. -/
def update_task (env : HostEnv) (db : Db) (task_id : Nat)
    (payload : TaskPayload) (now : Nat) : Except String (Option (Db × TaskRow)) := do
  match get_task db task_id with
  | none => .ok none
  | some existing =>
    let old_expr := existing.schedule_expression
    let new_expr : Option String :=
      match payload.schedule_expression with
      | .absent => old_expr
      | .null => none
      | .val s => some s
    let payload :=
      if existing.trigger_type = "schedule" ∧ old_expr ≠ new_expr ∧
          new_expr ≠ none ∧ new_expr ≠ some "" then
        { payload with next_run_at := .null }
      else payload
    let merged := mergePayload (rowToPayload existing) payload
    let task ← prepare_task_payload env merged true now
    let row : TaskRow :=
      { id := task_id, name := task.name, account := task.account,
        trigger_type := task.trigger_type,
        schedule_expression := task.schedule_expression,
        condition_script := task.condition_script,
        condition_interval := task.condition_interval,
        event_type := task.event_type, is_active := task.is_active,
        pre_task_ids := task.pre_task_ids, script_body := task.script_body,
        last_run_at := task.last_run_at, next_run_at := task.next_run_at,
        last_condition_check_at := task.last_condition_check_at,
        created_at := existing.created_at, updated_at := now }
    .ok (some
      ({ db with tasks := db.tasks.map (fun t => if t.id == task_id then row else t) },
       row))

end Database

/-! ## Executor (`class TaskRunner`)

The child process and the account-switching environment are external:
they enter the model as oracle values describing what `subprocess.run`
and `_prepare_account_context` did. -/

def TASK_TIMEOUT : Nat := 900
def CONDITION_TIMEOUT : Nat := 60

/-- What `subprocess.run` did: completed with captured output and exit
code, raised `TimeoutExpired`, or raised some other spawn error. -/
inductive ProcOutcome where
  | completed (stdout stderr : String) (returncode : Int)
  | timedOut (detail : String)
  | runError (message : String)
deriving DecidableEq, Repr

/-- What `_prepare_account_context` did: succeeded (with the optional
home directory of the target account), found no such account
(`KeyError` → `RuntimeError`), or refused because the service is not
running as root (`PermissionError`). -/
inductive AccountContext where
  | ok (home : Option String)
  | missingAccount (account : String)
  | privilegeRequired
deriving DecidableEq, Repr

def missingAccountError (account : String) : String :=
  "账号 " ++ account ++ " 不存在，无法执行任务"
def privilegeRequiredError : String := "调度服务需以 root 运行才能切换任务执行账号"
def timeoutLog (timeout : Nat) (detail : String) : String :=
  "任务执行超时 (>" ++ toString timeout ++ "s): " ++ detail
def runnerExceptionLog (message : String) : String := "任务执行异常: " ++ message

namespace TaskRunner

/-- `TaskRunner._execute_script`: account preparation happens before the
`try` block, so its failures escape as exceptions (`Except.error`);
everything from `subprocess.run` onwards is caught and returned as a
`(log, status)` pair. -/
def execute_script (acct : AccountContext) (proc : ProcOutcome)
    (timeout : Nat) : Except String (String × String) :=
  match acct with
  | .missingAccount account => .error (missingAccountError account)
  | .privilegeRequired => .error privilegeRequiredError
  | .ok _ =>
    match proc with
    | .timedOut detail => .ok (timeoutLog timeout detail, "failed")
    | .runError message => .ok (message, "failed")
    | .completed stdout stderr returncode =>
      .ok (pyStrip (stdout ++ stderr),
           if returncode == 0 then "success" else "failed")

/-- `TaskRunner.run`: record the running result row, execute, catch any
exception into a failed status, and always finalize the row and stamp
`last_run_at`. -/
def run (db : Db) (task : TaskRow) (trigger_reason : String)
    (acct : AccountContext) (proc : ProcOutcome) (now : Nat) : Db :=
  let started := Database.record_result_start db task.id trigger_reason now
  let outcome :=
    match execute_script acct proc TASK_TIMEOUT with
    | .ok p => p
    | .error e => (runnerExceptionLog e, "failed")
  let db1 := Database.finalize_result started.1 started.2 outcome.2 outcome.1 now
  Database.update_last_run db1 task.id now

end TaskRunner

/-! ## Engine (`class SchedulerEngine`)

A tick works on a wall-clock instant `now` (seconds).  Spawning a
`TaskRunner` thread is modelled as the runner's first database action,
the insertion of the `running` result row, plus a `spawn` event in the
tick's observable trace; the rest of the runner lifecycle is
`TaskRunner.run` above. -/

inductive EngineEvent where
  | spawn (task_id : Nat) (trigger_reason : String)
  | condCheckUpdate (task_id : Nat)
  | runConditionScript (task_id : Nat)
deriving DecidableEq, Repr

namespace SchedulerEngine

/-- `SchedulerEngine._dependencies_met`. -/
def dependencies_met (db : Db) (task : TaskRow) : Bool :=
  task.pre_task_ids.all (fun dep_id =>
    match Database.get_latest_result db dep_id with
    | none => false
    | some result => result.status == "success")

/-- `TaskRunner(...).start()` as seen by the database: the new thread's
first action is `record_result_start`. -/
def spawnRunner (db : Db) (task : TaskRow) (trigger_reason : String)
    (now : Nat) : Db :=
  (Database.record_result_start db task.id trigger_reason now).1

/-- One iteration of the `_process_due_tasks` loop. -/
def process_due_task (now : Nat) (db : Db) (task : TaskRow) :
    Except String (Db × List EngineEvent) :=
  if Database.has_running_instance db task.id then .ok (db, [])
  else if ¬ dependencies_met db task then
    (Database.schedule_next_run db task.id task.schedule_expression
        (now + 60) now).map (fun db1 => (db1, []))
  else do
    let db1 := spawnRunner db task "schedule" now
    let db2 ← Database.schedule_next_run db1 task.id task.schedule_expression now now
    .ok (db2, [.spawn task.id "schedule"])

/-- `SchedulerEngine._process_due_tasks`: the due list is fetched once,
then each row is handled in order; an exception aborts the rest of the
loop (the engine loop catches it outside). -/
def process_due_tasks (now : Nat) (db : Db) :
    Except String (Db × List EngineEvent) :=
  (Database.fetch_due_tasks db now).foldlM
    (fun st task => do
      let r ← process_due_task now st.1 task
      Except.ok (r.1, st.2 ++ r.2))
    (db, [])

/-- One iteration of the `_process_event_tasks` loop.  `cond_ok` tells
whether the condition script (an external process) exited with code 0;
timeouts and spawn errors are already folded into `false` as in
`_run_condition`. -/
def process_event_task (cond_ok : Nat → Bool) (now : Nat) (db : Db)
    (task : TaskRow) : Db × List EngineEvent :=
  let skip : Bool :=
    match task.last_condition_check_at with
    | some last_check =>
      decide ((now : Int) - (last_check : Int) < task.condition_interval)
    | none => false
  if skip then (db, [])
  else
    let db1 := Database.update_condition_check db task.id now
    let trace1 := [EngineEvent.condCheckUpdate task.id]
    if task.condition_script.getD "" = "" then (db1, trace1)
    else
      let trace2 := trace1 ++ [EngineEvent.runConditionScript task.id]
      if ¬ cond_ok task.id then (db1, trace2)
      else if Database.has_running_instance db1 task.id then (db1, trace2)
      else if ¬ dependencies_met db1 task then (db1, trace2)
      else (spawnRunner db1 task "condition" now,
            trace2 ++ [EngineEvent.spawn task.id "condition"])

/-- `SchedulerEngine._process_event_tasks`. -/
def process_event_tasks (cond_ok : Nat → Bool) (now : Nat) (db : Db) :
    Db × List EngineEvent :=
  (Database.fetch_event_tasks db (some EVENT_TYPE_SCRIPT)).foldl
    (fun st task =>
      let r := process_event_task cond_ok now st.1 task
      (r.1, st.2 ++ r.2))
    (db, [])

end SchedulerEngine

/-! ## API surface: the manual-run endpoint
(`SchedulerRequestHandler._run_task`) -/

inductive RunTaskResponse where
  /-- 404 Task not found. -/
  | notFound
  /-- 409 with the already-running error body. -/
  | conflict
  /-- 400 with the dependencies-not-met error body. -/
  | badRequest
  /-- 200 with body `queued = true`. -/
  | queued
deriving DecidableEq, Repr

namespace SchedulerRequestHandler

/-- `POST /api/tasks/.../run`. -/
def run_task (db : Db) (task_id : Nat) (now : Nat) :
    RunTaskResponse × Db × List EngineEvent :=
  match Database.get_task db task_id with
  | none => (.notFound, db, [])
  | some task =>
    if Database.has_running_instance db task_id then (.conflict, db, [])
    else if ¬ SchedulerEngine.dependencies_met db task then (.badRequest, db, [])
    else (.queued, SchedulerEngine.spawnRunner db task "manual" now,
          [.spawn task_id "manual"])

end SchedulerRequestHandler

/-! ## Auxiliary definitions used by the verification statements -/

/-- Written from the words of the specification (not from the code):
the DOM/DOW combination table of §4.1.  The amended C2 statement
compares the code's `calendar_ok` against this table. -/
def specCalendarTable (dom_wildcard dow_wildcard dom_match dow_match : Bool) : Bool :=
  match dom_wildcard, dow_wildcard with
  | true, true => true
  | true, false => dow_match
  | false, true => dom_match
  | false, false => dom_match || dow_match

/-- A field token contains a `*` segment (an empty segment strips to
`*`). -/
def hasStarSegment (token : String) : Bool :=
  (pySplitComma token).any CronExpression.isStarItem

/-- The result row a `TaskRunner.run` call creates and finalizes: the
row with the id that `record_result_start` hands out. -/
def runnerResult (db : Db) (task : TaskRow) (trigger_reason : String)
    (acct : AccountContext) (proc : ProcOutcome) (now : Nat) : Option ResultRow :=
  (TaskRunner.run db task trigger_reason acct proc now).results.find?
    (fun r => r.id == db.next_result_id)

instance {ε α : Type} [DecidableEq ε] [DecidableEq α] : DecidableEq (Except ε α) :=
  fun a b =>
    match a, b with
    | .ok x, .ok y =>
      if h : x = y then isTrue (by rw [h]) else isFalse (by simp [h])
    | .error x, .error y =>
      if h : x = y then isTrue (by rw [h]) else isFalse (by simp [h])
    | .ok _, .error _ => isFalse (by simp)
    | .error _, .ok _ => isFalse (by simp)

/-! ## Concrete values used by witnesses and counterexamples -/

/-- `CronExpression("* * * * *")`. -/
def starCron : CronExpression :=
  ⟨List.range' 0 60, List.range' 0 24, List.range' 1 31, List.range' 1 12,
   List.range' 0 7, true, true, true, true, true⟩

/-- `CronExpression("* * * * */2")`: the weekday union is
`{0, 2, 4, 6}`, which does not cover 0..6, and no weekday segment is
literally `*`, so the weekday field is not flagged wildcard. -/
def slashTwoCron : CronExpression :=
  ⟨List.range' 0 60, List.range' 0 24, List.range' 1 31, List.range' 1 12,
   [0, 2, 4, 6], true, true, true, true, false⟩

/-- 2024-06-01 10:15:00 in seconds. -/
def c3now : Nat := minutesOfCivil 2024 6 1 10 15 * 60

/-- A due hourly task (expression `0 * * * *`) whose dependency (task
2) has no results. -/
def c3task : TaskRow :=
  { id := 1, name := "b", account := "root", trigger_type := "schedule",
    schedule_expression := some "0 * * * *", condition_script := none,
    condition_interval := 60, event_type := "script", is_active := true,
    pre_task_ids := [2], script_body := "echo hi",
    last_run_at := none, next_run_at := some (minutesOfCivil 2024 6 1 10 0 * 60),
    last_condition_check_at := none, created_at := 0, updated_at := 0 }

def c3db : Db := { tasks := [c3task], results := [], next_task_id := 2, next_result_id := 1 }

def c4task : TaskRow :=
  { id := 1, name := "a", account := "root", trigger_type := "schedule",
    schedule_expression := some "0 * * * *", condition_script := none,
    condition_interval := 60, event_type := "script", is_active := true,
    pre_task_ids := [], script_body := "echo hi",
    last_run_at := none, next_run_at := some 600,
    last_condition_check_at := none, created_at := 0, updated_at := 0 }

def c4db : Db := { tasks := [c4task], results := [], next_task_id := 2, next_result_id := 1 }

/-- An event/script task last checked 5 seconds ago with a 30-second
interval: the tick at `c5now` must skip it. -/
def c5taskSkip : TaskRow :=
  { id := 3, name := "skip", account := "root", trigger_type := "event",
    schedule_expression := none, condition_script := some "exit 0",
    condition_interval := 30, event_type := "script", is_active := true,
    pre_task_ids := [], script_body := "echo hi",
    last_run_at := none, next_run_at := none,
    last_condition_check_at := some 95, created_at := 0, updated_at := 0 }

/-- An event/script task last checked 60 seconds ago with a 30-second
interval: the tick at `c5now` must check it. -/
def c5taskDue : TaskRow :=
  { id := 4, name := "due", account := "root", trigger_type := "event",
    schedule_expression := none, condition_script := some "exit 0",
    condition_interval := 30, event_type := "script", is_active := true,
    pre_task_ids := [], script_body := "echo hi",
    last_run_at := none, next_run_at := none,
    last_condition_check_at := some 40, created_at := 0, updated_at := 0 }

def c5now : Nat := 100

def c5db : Db :=
  { tasks := [c5taskSkip, c5taskDue], results := [], next_task_id := 5, next_result_id := 1 }

/-- A POSIX host on which `root` is an allowed account. -/
def c6env : HostEnv :=
  { posix_account_support := true, posix_allowed_accounts := ["root"],
    default_account_name := "root" }

def c6db0 : Db := { tasks := [], results := [], next_task_id := 1, next_result_id := 1 }

/-- A create payload (no `id` field) listing the id the autoincrement
counter is about to assign. -/
def c6payload : TaskPayload :=
  { emptyPayload with
    name := .val "a", account := .val "root", trigger_type := .val "schedule",
    schedule_expression := .val "* * * * *", script_body := .val "echo",
    pre_task_ids := .val (.ints [1]) }

/-- A create payload passing `pre_task_ids` as a JSON string with a
duplicate and a self-reference relative to the payload id. -/
def c6wPayload : TaskPayload :=
  { emptyPayload with
    id := .val 5, name := .val "w", account := .val "root",
    trigger_type := .val "event", event_type := .val "system_boot",
    script_body := .val "echo",
    pre_task_ids := .val (.text "[3, 3, 5, 4]") }

def c7task : TaskRow :=
  { id := 1, name := "r", account := "root", trigger_type := "schedule",
    schedule_expression := some "0 * * * *", condition_script := none,
    condition_interval := 60, event_type := "script", is_active := true,
    pre_task_ids := [], script_body := "echo hi",
    last_run_at := none, next_run_at := none,
    last_condition_check_at := none, created_at := 0, updated_at := 0 }

def c7db : Db := { tasks := [c7task], results := [], next_task_id := 2, next_result_id := 1 }

def dueRowAt (rid : Nat) (nra : Nat) : TaskRow :=
  { id := rid, name := "d", account := "root",
    trigger_type := "schedule", schedule_expression := some "0 * * * *",
    condition_script := none, condition_interval := 60,
    event_type := "script", is_active := true, pre_task_ids := [],
    script_body := "echo hi", last_run_at := none, next_run_at := some nra,
    last_condition_check_at := none, created_at := 0, updated_at := 0 }

/-- Tasks 1 and 3 are due at the same instant (a `next_run_at` tie);
task 2 is due earlier; task 4 is not a schedule task. -/
def c8db : Db :=
  { tasks := [dueRowAt 1 120, dueRowAt 2 60, dueRowAt 3 120,
              { dueRowAt 4 60 with trigger_type := "event" }],
    results := [], next_task_id := 5, next_result_id := 1 }

/-- A host without POSIX account support whose process account is
`bob`. -/
def c10env : HostEnv :=
  { posix_account_support := false, posix_allowed_accounts := [],
    default_account_name := "bob" }

/-- A payload with the account field absent. -/
def c10payload : TaskPayload :=
  { emptyPayload with
    name := .val "t", trigger_type := .val "event",
    event_type := .val "system_boot", script_body := .val "echo" }

/-- A stored row whose account (`alice`) differs from the process
default of `c10env` (for example because the database file was written
on a POSIX host). -/
def c10row : TaskRow :=
  { id := 1, name := "x", account := "alice", trigger_type := "event",
    schedule_expression := none, condition_script := none,
    condition_interval := 60, event_type := "system_boot", is_active := true,
    pre_task_ids := [], script_body := "echo hi",
    last_run_at := none, next_run_at := none,
    last_condition_check_at := none, created_at := 0, updated_at := 0 }

def c10db : Db := { tasks := [c10row], results := [], next_task_id := 2, next_result_id := 1 }

/-- An update payload that does not mention the account at all. -/
def c10updPayload : TaskPayload := { emptyPayload with is_active := .val false }

/-- The row `create_task c6env c6db0 c6wPayload 0` stores. -/
def c6wRow : TaskRow :=
  { id := 1, name := "w", account := "root", trigger_type := "event",
    schedule_expression := none, condition_script := none,
    condition_interval := 60, event_type := "system_boot", is_active := true,
    pre_task_ids := [3, 4], script_body := "echo",
    last_run_at := none, next_run_at := none,
    last_condition_check_at := none, created_at := 0, updated_at := 0 }

def c6wDb2 : Db := { tasks := [c6wRow], results := [], next_task_id := 2, next_result_id := 1 }

/-- The row `create_task c10env c6db0 c10payload 0` stores. -/
def c10wRow : TaskRow :=
  { id := 1, name := "t", account := "bob", trigger_type := "event",
    schedule_expression := none, condition_script := none,
    condition_interval := 60, event_type := "system_boot", is_active := true,
    pre_task_ids := [], script_body := "echo",
    last_run_at := none, next_run_at := none,
    last_condition_check_at := none, created_at := 0, updated_at := 0 }

def c10wDb2 : Db := { tasks := [c10wRow], results := [], next_task_id := 2, next_result_id := 1 }

/-- `c10payload` with a non-empty account different from the process
default of `c10env`. -/
def c10badPayload : TaskPayload := { c10payload with account := .val "alice" }

/-- An update payload that only rewrites `pre_task_ids`, listing the
target row's own id and a duplicate. -/
def c6updPayload : TaskPayload :=
  { emptyPayload with pre_task_ids := .val (.ints [1, 2, 2, 7]) }

/-- The row `update_task c6env c6wDb2 1 c6updPayload 0` writes back. -/
def c6updRow : TaskRow := { c6wRow with pre_task_ids := [2, 7] }

def c6updDb : Db :=
  { tasks := [c6updRow], results := [], next_task_id := 2, next_result_id := 1 }

/-- An update payload with an explicitly empty account. -/
def c10emptyAccPayload : TaskPayload :=
  { emptyPayload with account := .val "" }

/-- An update payload whose only present field is a non-empty account
different from the process default of `c10env`. -/
def c10updBadPayload : TaskPayload :=
  { emptyPayload with account := .val "alice" }

/-- Ascending `next_run_at` with ties broken by ascending task id (the
processing order stated by the specification). -/
def dueLex (a b : TaskRow) : Prop :=
  a.next_run_at.getD 0 < b.next_run_at.getD 0 ∨
    (a.next_run_at.getD 0 = b.next_run_at.getD 0 ∧ a.id ≤ b.id)

instance : DecidableRel dueLex := fun a b => by
  unfold dueLex
  infer_instance

/-- `CronExpression("0 * * * *")`. -/
def hourlyCron : CronExpression :=
  ⟨[0], List.range' 0 24, List.range' 1 31, List.range' 1 12,
   List.range' 0 7, false, true, true, true, true⟩

/-! # Theorems -/

/-! ## C1: `next_after` -/

namespace CronExpression

theorem next_after_loop_ok (e : CronExpression) :
    ∀ (fuel cand r : Nat), next_after_loop e cand fuel = .ok r →
      cand < r ∧ r ≤ cand + fuel ∧ e.matchesAt r = true ∧
      ∀ m, cand < m → m < r → e.matchesAt m = false := by
  intro fuel
  induction fuel with
  | zero => intro cand r h; simp [next_after_loop] at h
  | succ n ih =>
    intro cand r h
    rw [next_after_loop] at h
    by_cases hm : e.matchesAt (cand + 1) = true
    · rw [if_pos hm] at h
      cases h
      refine ⟨Nat.lt_succ_self _, by omega, hm, ?_⟩
      intro m h1 h2
      omega
    · rw [if_neg hm] at h
      obtain ⟨h1, h2, h3, h4⟩ := ih (cand + 1) r h
      refine ⟨by omega, by omega, h3, ?_⟩
      intro m hm1 hm2
      rcases Nat.eq_or_lt_of_le (Nat.succ_le_of_lt hm1) with heq | hlt
      · have : cand + 1 = m := heq
        rw [← this]
        exact Bool.eq_false_iff.mpr hm
      · exact h4 m hlt hm2

theorem next_after_loop_error (e : CronExpression) :
    ∀ (fuel cand : Nat),
      (∀ m, cand < m → m ≤ cand + fuel → e.matchesAt m = false) →
      next_after_loop e cand fuel = .error lookaheadError := by
  intro fuel
  induction fuel with
  | zero => intro cand _; rfl
  | succ n ih =>
    intro cand hall
    rw [next_after_loop]
    have h1 : e.matchesAt (cand + 1) = false := hall (cand + 1) (by omega) (by omega)
    rw [if_neg (by simp [h1])]
    exact ih (cand + 1) (fun m hm1 hm2 => hall m (by omega) (by omega))

end CronExpression

/-- C1: for every valid 5-field cron expression and every moment `t`
(seconds), a successful `next_after t` returns a minute-aligned instant
that matches the expression, is strictly greater than `t` truncated to
the minute, and is the earliest such instant (no minute strictly
between the truncation of `t` and the result matches); consequently
`next_after` is monotone: `next_after (next_after t) > next_after t`.
If no minute in the lookahead window of `60 * 24 * 366` minutes after
the truncation of `t` matches, `next_after` fails with the lookahead
error instead of returning. -/
theorem C1_next_after_correct (s : String) (e : CronExpression) (t : Nat)
    (_hparse : CronExpression.parse s = Except.ok e) :
    (∀ r, e.next_after t = Except.ok r →
      e.matchesAt (r / 60) = true ∧ r % 60 = 0 ∧ (t / 60) * 60 < r ∧
      (∀ m, t / 60 < m → m * 60 < r → e.matchesAt m = false) ∧
      (∀ r2, e.next_after r = Except.ok r2 → r < r2)) ∧
    ((∀ m, t / 60 < m → m ≤ t / 60 + CronExpression.MAX_LOOKAHEAD_MINUTES →
        e.matchesAt m = false) →
      e.next_after t = Except.error CronExpression.lookaheadError) := by
  clear _hparse
  constructor
  · intro r hr
    rw [CronExpression.next_after] at hr
    cases hloop : CronExpression.next_after_loop e (t / 60)
        CronExpression.MAX_LOOKAHEAD_MINUTES with
    | error msg => rw [hloop] at hr; exact absurd hr (by simp [Except.map])
    | ok rm =>
      rw [hloop] at hr
      simp only [Except.map] at hr
      cases hr
      obtain ⟨h1, _h2, h3, h4⟩ := CronExpression.next_after_loop_ok e _ _ _ hloop
      have hdiv : rm * 60 / 60 = rm := Nat.mul_div_cancel rm (by omega)
      refine ⟨by rwa [hdiv], Nat.mul_mod_left rm 60, by
        exact Nat.mul_lt_mul_of_lt_of_le h1 (le_refl 60) (by omega), ?_, ?_⟩
      · intro m hm1 hm2
        exact h4 m hm1 (by omega)
      · intro r2 hr2
        rw [CronExpression.next_after] at hr2
        cases hloop2 : CronExpression.next_after_loop e (rm * 60 / 60)
            CronExpression.MAX_LOOKAHEAD_MINUTES with
        | error msg => rw [hloop2] at hr2; exact absurd hr2 (by simp [Except.map])
        | ok rm2 =>
          rw [hloop2] at hr2
          simp only [Except.map] at hr2
          cases hr2
          rw [hdiv] at hloop2
          obtain ⟨hlt, _, _, _⟩ := CronExpression.next_after_loop_ok e _ _ _ hloop2
          exact Nat.mul_lt_mul_of_lt_of_le hlt (le_refl 60) (by omega)
  · intro hall
    rw [CronExpression.next_after,
      CronExpression.next_after_loop_error e _ _ hall]
    rfl

/-- Witness for C1 at the expression `* * * * *` and `t = 0`: parsing
succeeds, `next_after` returns minute 1 (second 60), and the theorem's
conclusion holds there. -/
theorem C1_next_after_correct_witness :
    CronExpression.parse "* * * * *" = Except.ok starCron ∧
    starCron.next_after 0 = Except.ok 60 ∧
    (∀ r, starCron.next_after 0 = Except.ok r →
      starCron.matchesAt (r / 60) = true ∧ r % 60 = 0 ∧ (0 / 60) * 60 < r ∧
      (∀ m, 0 / 60 < m → m * 60 < r → starCron.matchesAt m = false) ∧
      (∀ r2, starCron.next_after r = Except.ok r2 → r < r2)) :=
  ⟨by decide, by decide,
   (C1_next_after_correct "* * * * *" starCron 0 (by decide)).1⟩

/-! ## C3: a blocked due task -/

/-- C3 counterexample to the claim as stated: at the tick instant
2024-06-01 10:15:00, the due hourly task 1 (expression `0 * * * *`) has
no running instance and an unmet dependency; the tick spawns nothing
and persists `next_run_at = 2024-06-01 11:00:00`, which is not the tick
time plus one minute (10:16:00). -/
theorem C3_counterexample :
    Database.fetch_due_tasks c3db c3now = [c3task] ∧
    Database.has_running_instance c3db 1 = false ∧
    SchedulerEngine.dependencies_met c3db c3task = false ∧
    (SchedulerEngine.process_due_tasks c3now c3db).map
        (fun r => ((Database.get_task r.1 1).map (fun t => t.next_run_at), r.2)) =
      Except.ok (some (some (minutesOfCivil 2024 6 1 11 0 * 60)), []) ∧
    minutesOfCivil 2024 6 1 11 0 * 60 ≠ c3now + 60 :=
  ⟨by decide, by decide, by decide, by decide, by decide⟩

/-- C3 (amended): during a tick at `now`, a due schedule task with no
running instance whose dependencies are not met is not spawned (the
iteration produces no events), and its `next_run_at` is persisted as
the next firing instant of its cron expression computed from `now + 1`
minute via `schedule_next_run(expression, now + 1 min)` — in general a
later instant than `now + 1` minute itself. -/
theorem C3_blocked_due_task (now : Nat) (db : Db) (task : TaskRow)
    (expr : String) (e : CronExpression) (nxt : Nat)
    (hrun : Database.has_running_instance db task.id = false)
    (hdeps : SchedulerEngine.dependencies_met db task = false)
    (hexpr : task.schedule_expression = some expr) (hne : expr ≠ "")
    (hparse : CronExpression.parse expr = Except.ok e)
    (hnext : e.next_after (now + 60) = Except.ok nxt) :
    SchedulerEngine.process_due_task now db task =
      Except.ok
        ({ db with tasks := db.tasks.map (fun t =>
            if t.id == task.id then
              { t with next_run_at := some nxt, updated_at := now }
            else t) },
         []) := by
  rw [SchedulerEngine.process_due_task]
  rw [if_neg (by simp [hrun])]
  rw [if_pos (by simp [hdeps])]
  rw [hexpr]
  simp only [Database.schedule_next_run]
  rw [if_neg hne]
  simp only [hparse, hnext, Except.bind, Except.map, bind, Except.ok.injEq]

/-- Witness for the amended C3 on the concrete store `c3db`. -/
theorem C3_blocked_due_task_witness :
    Database.has_running_instance c3db 1 = false ∧
    SchedulerEngine.dependencies_met c3db c3task = false ∧
    c3task.schedule_expression = some "0 * * * *" ∧
    CronExpression.parse "0 * * * *" = Except.ok hourlyCron ∧
    hourlyCron.next_after (c3now + 60) =
      Except.ok (minutesOfCivil 2024 6 1 11 0 * 60) ∧
    SchedulerEngine.process_due_task c3now c3db c3task =
      Except.ok
        ({ c3db with tasks := c3db.tasks.map (fun t =>
            if t.id == c3task.id then
              { t with next_run_at := some (minutesOfCivil 2024 6 1 11 0 * 60),
                       updated_at := c3now }
            else t) },
         []) :=
  ⟨by decide, by decide, by decide, by decide, by decide,
   C3_blocked_due_task c3now c3db c3task "0 * * * *" hourlyCron
     (minutesOfCivil 2024 6 1 11 0 * 60) (by decide) (by decide) (by decide)
     (by decide) (by decide) (by decide)⟩

/-! ## C4: the manual-run endpoint -/

/-- C4: `POST /api/tasks/.../run` responds 404 when the task does not
exist; 409 when it has a running result row, leaving the database
untouched (no new result row, no state change) and spawning nothing;
400 when its dependencies are not met, also without side effects; and
otherwise spawns an execution with trigger reason `manual` (the
runner's initial `running` row) and replies `queued`. -/
theorem C4_manual_run (db : Db) (task_id : Nat) (now : Nat) :
    (Database.get_task db task_id = none →
      SchedulerRequestHandler.run_task db task_id now = (.notFound, db, [])) ∧
    (∀ task, Database.get_task db task_id = some task →
      Database.has_running_instance db task_id = true →
      SchedulerRequestHandler.run_task db task_id now = (.conflict, db, [])) ∧
    (∀ task, Database.get_task db task_id = some task →
      Database.has_running_instance db task_id = false →
      SchedulerEngine.dependencies_met db task = false →
      SchedulerRequestHandler.run_task db task_id now = (.badRequest, db, [])) ∧
    (∀ task, Database.get_task db task_id = some task →
      Database.has_running_instance db task_id = false →
      SchedulerEngine.dependencies_met db task = true →
      SchedulerRequestHandler.run_task db task_id now =
        (.queued, SchedulerEngine.spawnRunner db task "manual" now,
         [.spawn task_id "manual"])) := by
  refine ⟨?_, ?_, ?_, ?_⟩
  · intro h
    simp [SchedulerRequestHandler.run_task, h]
  · intro task h hrun
    simp [SchedulerRequestHandler.run_task, h, hrun]
  · intro task h hrun hdeps
    simp [SchedulerRequestHandler.run_task, h, hrun, hdeps]
  · intro task h hrun hdeps
    simp [SchedulerRequestHandler.run_task, h, hrun, hdeps]

/-- Witness for C4 on a one-task store: an unknown id gives 404 and a
runnable task is queued with reason `manual`. -/
theorem C4_manual_run_witness :
    Database.get_task c4db 2 = none ∧
    SchedulerRequestHandler.run_task c4db 2 77 = (.notFound, c4db, []) ∧
    Database.get_task c4db 1 = some c4task ∧
    Database.has_running_instance c4db 1 = false ∧
    SchedulerEngine.dependencies_met c4db c4task = true ∧
    SchedulerRequestHandler.run_task c4db 1 77 =
      (.queued, SchedulerEngine.spawnRunner c4db c4task "manual" 77,
       [.spawn 1 "manual"]) :=
  ⟨by decide, (C4_manual_run c4db 2 77).1 (by decide), by decide, by decide,
   by decide,
   (C4_manual_run c4db 1 77).2.2.2 c4task (by decide) (by decide) (by decide)⟩

/-! ## C5: condition-check throttling -/

/-- C5: for an event task handled by `_process_event_tasks`, if
`last_condition_check_at` is set and less than `condition_interval`
seconds before `now`, the tick skips the task: no condition script run,
no event at all, and the database unchanged.  Otherwise the first
observable action is the `last_condition_check_at := now` write, so the
condition script (if it runs at all) runs only after the stamp is set,
and every row of the task ends up with `last_condition_check_at =
now`. -/
theorem C5_condition_throttle (cond_ok : Nat → Bool) (now : Nat) (db : Db)
    (task : TaskRow) :
    (∀ last, task.last_condition_check_at = some last →
      (now : Int) - (last : Int) < task.condition_interval →
      SchedulerEngine.process_event_task cond_ok now db task = (db, [])) ∧
    ((match task.last_condition_check_at with
      | some last => task.condition_interval ≤ (now : Int) - (last : Int)
      | none => True) →
      (SchedulerEngine.process_event_task cond_ok now db task).2.head? =
        some (.condCheckUpdate task.id) ∧
      (∀ t2, t2 ∈ (SchedulerEngine.process_event_task cond_ok now db task).1.tasks →
        t2.id = task.id → t2.last_condition_check_at = some now)) := by
  constructor
  · intro last hlast hrecent
    rw [SchedulerEngine.process_event_task, hlast]
    simp [hrecent]
  · intro hstale
    have hskip :
        (match task.last_condition_check_at with
          | some last_check =>
            decide ((now : Int) - (last_check : Int) < task.condition_interval)
          | none => false) = false := by
      cases hl : task.last_condition_check_at with
      | none => rfl
      | some last =>
        rw [hl] at hstale
        simp only [decide_eq_false_iff_not]
        omega
    have hmem : ∀ t2,
        t2 ∈ (Database.update_condition_check db task.id now).tasks →
        t2.id = task.id → t2.last_condition_check_at = some now := by
      intro t2 ht2 hid
      rw [Database.update_condition_check] at ht2
      simp only [List.mem_map] at ht2
      obtain ⟨t0, _ht0, rfl⟩ := ht2
      by_cases h0 : t0.id == task.id
      · simp [h0]
      · rw [if_neg h0] at hid ⊢
        exact absurd (by simp [hid]) h0
    rw [SchedulerEngine.process_event_task]
    rw [hskip]
    simp only [Bool.false_eq_true, if_false]
    by_cases hscript : task.condition_script.getD "" = ""
    · rw [if_pos hscript]
      exact ⟨rfl, hmem⟩
    · rw [if_neg hscript]
      by_cases hok : cond_ok task.id = true
      · rw [if_neg (by simp [hok])]
        by_cases hrun : Database.has_running_instance
            (Database.update_condition_check db task.id now) task.id = true
        · rw [if_pos hrun]
          exact ⟨rfl, hmem⟩
        · rw [if_neg hrun]
          by_cases hdeps : SchedulerEngine.dependencies_met
              (Database.update_condition_check db task.id now) task = true
          · rw [if_neg (by simp [hdeps])]
            refine ⟨rfl, fun t2 ht2 hid => ?_⟩
            rw [SchedulerEngine.spawnRunner] at ht2
            simp only [Database.record_result_start] at ht2
            exact hmem t2 ht2 hid
          · rw [if_pos (by simp [hdeps])]
            exact ⟨rfl, hmem⟩
      · rw [if_pos (by simp [hok])]
        exact ⟨rfl, hmem⟩

/-- Witness for C5: at `now = 100` a task checked 5 seconds ago with a
30-second interval is skipped untouched, and a task checked 60 seconds
ago is stamped and checked. -/
theorem C5_condition_throttle_witness :
    c5taskSkip.last_condition_check_at = some 95 ∧
    ((100 : Int) - (95 : Int) < c5taskSkip.condition_interval) ∧
    SchedulerEngine.process_event_task (fun _ => true) c5now c5db c5taskSkip =
      (c5db, []) ∧
    c5taskDue.last_condition_check_at = some 40 ∧
    (SchedulerEngine.process_event_task (fun _ => true) c5now c5db c5taskDue).2.head? =
      some (.condCheckUpdate 4) :=
  ⟨by decide, by decide,
   (C5_condition_throttle (fun _ => true) c5now c5db c5taskSkip).1 95
     (by decide) (by decide),
   by decide,
   ((C5_condition_throttle (fun _ => true) c5now c5db c5taskDue).2
     (by
       show (c5taskDue.condition_interval : Int) ≤
         (c5now : Int) - ((40 : Nat) : Int)
       decide)).1⟩

/-! ## Normalization of `pre_task_ids` (used by C6) -/

theorem clean_pre_ids_loop_nodup (cur : Option Int) (ids : List Int) :
    ∀ acc : List Int, acc.Nodup → (clean_pre_ids_loop cur ids acc).Nodup := by
  induction ids with
  | nil => intro acc h; exact h
  | cons tid rest ih =>
    intro acc h
    rw [clean_pre_ids_loop]
    split_ifs with h1 h2
    · exact ih acc h
    · exact ih acc h
    · exact ih (acc ++ [tid]) (by simp [List.nodup_append, h, h2])

theorem clean_pre_ids_loop_not_mem (c : Int) (ids : List Int) :
    ∀ acc : List Int, c ∉ acc → c ∉ clean_pre_ids_loop (some c) ids acc := by
  induction ids with
  | nil => intro acc h; exact h
  | cons tid rest ih =>
    intro acc h
    rw [clean_pre_ids_loop]
    split_ifs with h1 h2
    · exact ih acc h
    · exact ih acc h
    · refine ih (acc ++ [tid]) ?_
      have : c ≠ tid := fun hct => h1 (by rw [hct])
      simp [h, this]

theorem clean_pre_ids_loop_sublist (cur : Option Int) (ids : List Int) :
    ∀ acc : List Int, ∃ s, clean_pre_ids_loop cur ids acc = acc ++ s ∧
      s.Sublist ids := by
  induction ids with
  | nil => intro acc; exact ⟨[], by simp [clean_pre_ids_loop]⟩
  | cons tid rest ih =>
    intro acc
    rw [clean_pre_ids_loop]
    split_ifs with h1 h2
    · obtain ⟨s, hs1, hs2⟩ := ih acc
      exact ⟨s, hs1, hs2.cons tid⟩
    · obtain ⟨s, hs1, hs2⟩ := ih acc
      exact ⟨s, hs1, hs2.cons tid⟩
    · obtain ⟨s, hs1, hs2⟩ := ih (acc ++ [tid])
      exact ⟨tid :: s, by rw [hs1, List.append_assoc]; rfl, hs2.cons₂ tid⟩

theorem clean_pre_ids_nodup (cur : Option Int) (ids : List Int) :
    (clean_pre_ids cur ids).Nodup :=
  clean_pre_ids_loop_nodup cur ids [] List.nodup_nil

theorem clean_pre_ids_not_mem (c : Int) (ids : List Int) :
    c ∉ clean_pre_ids (some c) ids :=
  clean_pre_ids_loop_not_mem c ids [] (List.not_mem_nil c)

theorem clean_pre_ids_sublist (cur : Option Int) (ids : List Int) :
    (clean_pre_ids cur ids).Sublist ids := by
  obtain ⟨s, hs1, hs2⟩ := clean_pre_ids_loop_sublist cur ids []
  rw [clean_pre_ids, hs1]
  simpa using hs2

/-- Dissection of the second half of `_prepare_task_payload`: a
successful preparation copies the validated account verbatim and stores
exactly the normalized `pre_task_ids`. -/
theorem prepare_fields_spec (tt n a sb : String) (payload : TaskPayload)
    (u : Bool) (now : Nat) (task : PreparedTask)
    (h : prepare_task_fields tt n a sb payload u now = Except.ok task) :
    task.account = a ∧
    ∃ raw, decoded_pre_ids payload = Except.ok raw ∧
      task.pre_task_ids = clean_pre_ids (current_task_id payload) raw := by
  unfold prepare_task_fields at h
  cases hci : intOrDefault payload.condition_interval 60 with
  | error m => rw [hci] at h; simp [bind, Except.bind] at h
  | ok ci =>
  rw [hci] at h
  simp only [bind, Except.bind] at h
  cases hd : decoded_pre_ids payload with
  | error m => rw [hd] at h; simp at h
  | ok raw =>
  rw [hd] at h
  simp only [] at h
  by_cases ht : tt = "schedule"
  · rw [if_pos ht] at h
    cases hse : optStr payload.schedule_expression with
    | none => rw [hse] at h; simp at h
    | some expr =>
    rw [hse] at h
    simp only [] at h
    by_cases hne : expr = ""
    · rw [if_pos hne] at h; simp at h
    · rw [if_neg hne] at h
      cases hp : CronExpression.parse expr with
      | error m => rw [hp] at h; simp at h
      | ok cron =>
      rw [hp] at h
      simp only [] at h
      by_cases hnr : (¬ u = true ∨ optNat payload.next_run_at = none)
      · rw [if_pos hnr] at h
        cases hna : cron.next_after now with
        | error m => rw [hna] at h; simp [pure, Except.pure] at h
        | ok nxt =>
          rw [hna] at h
          simp only [pure, Except.pure] at h
          simp only [Except.ok.injEq] at h
          rw [← h]
          exact ⟨rfl, raw, rfl, rfl⟩
      · rw [if_neg hnr] at h
        simp only [pure, Except.pure] at h
        simp only [Except.ok.injEq] at h
        rw [← h]
        exact ⟨rfl, raw, rfl, rfl⟩
  · rw [if_neg ht] at h
    by_cases hev : eventTypeOf payload.event_type ∈ EVENT_TYPES
    · rw [if_neg (by simp [hev])] at h
      by_cases hsc : eventTypeOf payload.event_type = EVENT_TYPE_SCRIPT
      · rw [if_pos hsc] at h
        cases hcs : optStr payload.condition_script with
        | none => rw [hcs] at h; simp at h
        | some cs =>
        rw [hcs] at h
        simp only [] at h
        by_cases hcse : cs = ""
        · rw [if_pos hcse] at h; simp at h
        · rw [if_neg hcse] at h
          simp only [Except.ok.injEq] at h
          rw [← h]
          exact ⟨rfl, raw, rfl, rfl⟩
      · rw [if_neg hsc] at h
        simp only [Except.ok.injEq] at h
        rw [← h]
        exact ⟨rfl, raw, rfl, rfl⟩
    · rw [if_pos (by simp [hev])] at h
      simp at h

/-- Dissection of `_prepare_task_payload`: a successful preparation
stores the account produced by `ensure_account_allowed` (after the
non-POSIX default substitution) and the normalized `pre_task_ids`. -/
theorem prepare_payload_spec (env : HostEnv) (payload : TaskPayload)
    (u : Bool) (now : Nat) (task : PreparedTask)
    (h : prepare_task_payload env payload u now = Except.ok task) :
    (∃ acc0, stripOrDefault payload.account "" = Except.ok acc0 ∧
      ensure_account_allowed env
        (if acc0 = "" ∧ ¬ env.posix_account_support then
          env.default_account_name else acc0) = Except.ok task.account) ∧
    ∃ raw, decoded_pre_ids payload = Except.ok raw ∧
      task.pre_task_ids = clean_pre_ids (current_task_id payload) raw := by
  unfold prepare_task_payload at h
  cases htt : triggerTypeOf payload.trigger_type with
  | error m => rw [htt] at h; simp [bind, Except.bind] at h
  | ok tt =>
  rw [htt] at h
  simp only [bind, Except.bind] at h
  cases hnm : stripOrDefault payload.name "" with
  | error m => rw [hnm] at h; simp at h
  | ok nm =>
  rw [hnm] at h
  simp only [] at h
  cases hac : stripOrDefault payload.account "" with
  | error m => rw [hac] at h; simp at h
  | ok acc0 =>
  rw [hac] at h
  simp only [] at h
  by_cases hn : nm = ""
  · rw [if_pos hn] at h; simp at h
  · rw [if_neg hn] at h
    by_cases ha1 : (if acc0 = "" ∧ ¬ env.posix_account_support then
        env.default_account_name else acc0) = ""
    · rw [if_pos ha1] at h; simp at h
    · rw [if_neg ha1] at h
      cases hen : ensure_account_allowed env
          (if acc0 = "" ∧ ¬ env.posix_account_support then
            env.default_account_name else acc0) with
      | error m => rw [hen] at h; simp at h
      | ok acc =>
      rw [hen] at h
      simp only [] at h
      cases hsb : stripOrDefault payload.script_body "" with
      | error m => rw [hsb] at h; simp at h
      | ok sb =>
      rw [hsb] at h
      simp only [] at h
      by_cases hsbe : sb = ""
      · rw [if_pos hsbe] at h; simp at h
      · rw [if_neg hsbe] at h
        obtain ⟨hacc, hpre⟩ := prepare_fields_spec tt nm acc sb payload u now task h
        exact ⟨⟨acc0, rfl, by rw [hacc]; exact hen⟩, hpre⟩

/-- On a non-POSIX host with a non-empty default account, the default
account itself passes the account policy. -/
theorem ensure_account_default (env : HostEnv)
    (hposix : env.posix_account_support = false)
    (hdef : env.default_account_name ≠ "") :
    ensure_account_allowed env env.default_account_name =
      Except.ok env.default_account_name := by
  unfold ensure_account_allowed list_allowed_accounts
  rw [hposix]
  simp [hdef]

/-- On a non-POSIX host, a non-empty account different from the default
fails the account policy with the only-supported-account error. -/
theorem ensure_account_mismatch (env : HostEnv) (s : String)
    (hposix : env.posix_account_support = false)
    (hdef : env.default_account_name ≠ "")
    (hs : s ≠ "") (hne : s ≠ env.default_account_name) :
    ensure_account_allowed env s =
      Except.error (windowsAccountError env.default_account_name) := by
  unfold ensure_account_allowed list_allowed_accounts
  rw [hposix]
  simp [hdef, hs, hne]

/-- Dissection of `Database.create_task`: the stored row copies the
validated fields and carries the fresh autoincrement id. -/
theorem create_task_spec (env : HostEnv) (db : Db) (payload : TaskPayload)
    (now : Nat) (db2 : Db) (row : TaskRow)
    (h : Database.create_task env db payload now = Except.ok (db2, row)) :
    ∃ task, prepare_task_payload env payload false now = Except.ok task ∧
      row.id = db.next_task_id ∧ row.account = task.account ∧
      row.pre_task_ids = task.pre_task_ids := by
  unfold Database.create_task at h
  cases hp : prepare_task_payload env payload false now with
  | error m => rw [hp] at h; simp [bind, Except.bind] at h
  | ok task =>
    rw [hp] at h
    simp only [bind, Except.bind, Except.ok.injEq, Prod.mk.injEq] at h
    obtain ⟨_, hrow⟩ := h
    exact ⟨task, rfl, by rw [← hrow], by rw [← hrow], by rw [← hrow]⟩

/-- Dissection of `Database.update_task`: the written row copies the
re-validated fields obtained from the merged payload, whose `account`
and `id` views come from the client payload merged over the existing
row. -/
theorem update_task_spec (env : HostEnv) (db : Db) (task_id : Nat)
    (payload : TaskPayload) (now : Nat) (db2 : Db) (row : TaskRow)
    (h : Database.update_task env db task_id payload now =
      Except.ok (some (db2, row))) :
    ∃ ex task p2, Database.get_task db task_id = some ex ∧
      ex.id = task_id ∧
      p2.account = payload.account ∧ p2.id = payload.id ∧
      p2.pre_task_ids = payload.pre_task_ids ∧
      prepare_task_payload env
        (Database.mergePayload (Database.rowToPayload ex) p2) true now =
        Except.ok task ∧
      row.account = task.account ∧ row.pre_task_ids = task.pre_task_ids ∧
      row.id = task_id := by
  unfold Database.update_task at h
  cases hg : Database.get_task db task_id with
  | none => rw [hg] at h; simp [bind, Except.bind] at h
  | some ex =>
  rw [hg] at h
  simp only [bind, Except.bind] at h
  have hexid : ex.id = task_id := by
    unfold Database.get_task at hg
    have := List.find?_some hg
    simpa using this
  by_cases hchg : (ex.trigger_type = "schedule" ∧
      ex.schedule_expression ≠
        (match payload.schedule_expression with
         | .absent => ex.schedule_expression
         | .null => none
         | .val s => some s) ∧
      (match payload.schedule_expression with
       | .absent => ex.schedule_expression
       | .null => none
       | .val s => some s) ≠ none ∧
      (match payload.schedule_expression with
       | .absent => ex.schedule_expression
       | .null => none
       | .val s => some s) ≠ some "")
  · rw [if_pos hchg] at h
    cases hp : prepare_task_payload env
        (Database.mergePayload (Database.rowToPayload ex)
          { payload with next_run_at := .null }) true now with
    | error m => rw [hp] at h; simp at h
    | ok task =>
      rw [hp] at h
      simp only [Except.ok.injEq, Option.some.injEq, Prod.mk.injEq] at h
      obtain ⟨_, hrow⟩ := h
      exact ⟨ex, task, { payload with next_run_at := .null }, rfl, hexid,
        rfl, rfl, rfl, hp, by rw [← hrow], by rw [← hrow], by rw [← hrow]⟩
  · rw [if_neg hchg] at h
    cases hp : prepare_task_payload env
        (Database.mergePayload (Database.rowToPayload ex) payload) true now with
    | error m => rw [hp] at h; simp at h
    | ok task =>
      rw [hp] at h
      simp only [Except.ok.injEq, Option.some.injEq, Prod.mk.injEq] at h
      obtain ⟨_, hrow⟩ := h
      exact ⟨ex, task, payload, rfl, hexid, rfl, rfl, rfl, hp,
        by rw [← hrow], by rw [← hrow], by rw [← hrow]⟩

/-- `decoded_pre_ids` reads only the `pre_task_ids` field. -/
theorem decoded_pre_ids_congr (p q : TaskPayload)
    (h : p.pre_task_ids = q.pre_task_ids) :
    decoded_pre_ids p = decoded_pre_ids q := by
  unfold decoded_pre_ids
  rw [h]

/-- On a non-POSIX host with a non-empty default account, any account
the policy accepts comes back as the default, and a non-empty submitted
account passes only when it already equals the default. -/
theorem ensure_account_ok_nonposix (env : HostEnv) (a r : String)
    (hposix : env.posix_account_support = false)
    (hdef : env.default_account_name ≠ "")
    (h : ensure_account_allowed env a = Except.ok r) :
    r = env.default_account_name ∧
      (a ≠ "" → a = env.default_account_name) := by
  by_cases hae : a = ""
  · subst hae
    have he : ensure_account_allowed env "" =
        Except.ok env.default_account_name := by
      unfold ensure_account_allowed list_allowed_accounts
      rw [hposix]
      simp [hdef]
    rw [he] at h
    exact ⟨(Except.ok.inj h).symm, fun hfa => absurd rfl hfa⟩
  · by_cases had : a = env.default_account_name
    · subst had
      rw [ensure_account_default env hposix hdef] at h
      exact ⟨(Except.ok.inj h).symm, fun _ => rfl⟩
    · rw [ensure_account_mismatch env a hposix hdef hae had] at h
      simp at h

/-- When re-validation of the merged payload fails, `update_task`
propagates the error, whichever payload variant the expression-change
check selected. -/
theorem update_task_prepare_error (env : HostEnv) (db : Db) (task_id : Nat)
    (payload : TaskPayload) (now : Nat) (ex : TaskRow) (m : String)
    (hg : Database.get_task db task_id = some ex)
    (herr : ∀ p2 : TaskPayload, p2.account = payload.account →
      p2.name = payload.name → p2.trigger_type = payload.trigger_type →
      prepare_task_payload env
        (Database.mergePayload (Database.rowToPayload ex) p2) true now =
        Except.error m) :
    Database.update_task env db task_id payload now = Except.error m := by
  unfold Database.update_task
  rw [hg]
  simp only [bind, Except.bind]
  by_cases hchg : (ex.trigger_type = "schedule" ∧
      ex.schedule_expression ≠
        (match payload.schedule_expression with
         | .absent => ex.schedule_expression
         | .null => none
         | .val s => some s) ∧
      (match payload.schedule_expression with
       | .absent => ex.schedule_expression
       | .null => none
       | .val s => some s) ≠ none ∧
      (match payload.schedule_expression with
       | .absent => ex.schedule_expression
       | .null => none
       | .val s => some s) ≠ some "")
  · rw [if_pos hchg, herr { payload with next_run_at := .null } rfl rfl rfl]
  · rw [if_neg hchg, herr payload rfl rfl rfl]

/-! ## The canonical-set representation used by `_expand_field` -/

theorem mem_setInsert (x v : Nat) : ∀ l : List Nat,
    x ∈ setInsert v l ↔ x = v ∨ x ∈ l := by
  intro l
  induction l with
  | nil => simp [setInsert]
  | cons y ys ih =>
    rw [setInsert]
    split_ifs with h1 h2
    · simp
    · subst h2
      constructor
      · exact Or.inr
      · rintro (rfl | hx)
        · exact List.mem_cons_self x ys
        · exact hx
    · rw [List.mem_cons, ih, List.mem_cons]
      tauto

theorem sorted_setInsert (v : Nat) : ∀ l : List Nat,
    l.Sorted (· < ·) → (setInsert v l).Sorted (· < ·) := by
  intro l
  induction l with
  | nil => intro _; simp [setInsert]
  | cons y ys ih =>
    intro hl
    rw [setInsert]
    split_ifs with h1 h2
    · rw [List.sorted_cons]
      refine ⟨?_, hl⟩
      intro b hb
      rcases List.mem_cons.mp hb with rfl | hbys
      · exact h1
      · exact h1.trans ((List.sorted_cons.mp hl).1 b hbys)
    · exact hl
    · have hyv : y < v := by omega
      rw [List.sorted_cons]
      refine ⟨?_, ih (List.sorted_cons.mp hl).2⟩
      intro b hb
      rcases (mem_setInsert b v ys).mp hb with rfl | hbys
      · exact hyv
      · exact (List.sorted_cons.mp hl).1 b hbys

theorem mem_setUnion (x : Nat) (contrib : List Nat) : ∀ l : List Nat,
    x ∈ setUnion l contrib ↔ x ∈ l ∨ x ∈ contrib := by
  induction contrib with
  | nil => intro l; simp [setUnion]
  | cons v vs ih =>
    intro l
    have hstep : setUnion l (v :: vs) = setUnion (setInsert v l) vs := rfl
    rw [hstep, ih (setInsert v l), mem_setInsert, List.mem_cons]
    tauto

theorem sorted_setUnion (contrib : List Nat) : ∀ l : List Nat,
    l.Sorted (· < ·) → (setUnion l contrib).Sorted (· < ·) := by
  induction contrib with
  | nil => intro l hl; exact hl
  | cons v vs ih =>
    intro l hl
    exact ih (setInsert v l) (sorted_setInsert v l hl)

theorem mem_setOfList (x : Nat) (l : List Nat) : x ∈ setOfList l ↔ x ∈ l := by
  rw [setOfList, mem_setUnion]
  simp

/-- A `*` segment (or an empty one, which strips to `*`) contributes
the field's full inclusive range: the step is 1 so the offset filter
keeps everything. -/
theorem expand_item_star (spec : FieldSpec) (raw : String)
    (hstar : CronExpression.isStarItem raw = true)
    (hmm : spec.minValue ≤ spec.maxValue) :
    CronExpression.expand_item spec raw =
      Except.ok (List.range' spec.minValue (spec.maxValue + 1 - spec.minValue)) := by
  have horig : CronExpression.normalizeItem raw = "*" := by
    rw [CronExpression.isStarItem] at hstar
    exact eq_of_beq hstar
  rw [CronExpression.expand_item, horig]
  rw [if_neg (by decide : ¬ pyContainsChar "*" '/' = true)]
  simp only [bind, Except.bind]
  rw [CronExpression.expand_range, if_pos rfl]
  simp only [bind, Except.bind]
  have hne : List.range' spec.minValue (spec.maxValue + 1 - spec.minValue) ≠ [] := by
    intro hcontra
    have := congrArg List.length hcontra
    rw [List.length_range'] at this
    simp at this
    omega
  rw [if_neg hne]
  congr 1
  refine List.filter_eq_self.mpr ?_
  intro v _
  have hz : ∀ z : Int, Int.emod z 1 = 0 := fun z => Int.emod_one z
  rw [hz]
  rfl

/-- Dissection of the `_expand_field` accumulation loop. -/
theorem expand_field_loop_spec (spec : FieldSpec) :
    ∀ (items : List String) (values : List Nat) (wildcard : Bool)
      (values2 : List Nat) (wildcard2 : Bool),
      CronExpression.expand_field_loop spec items values wildcard =
        Except.ok (values2, wildcard2) →
      wildcard2 = (wildcard || items.any CronExpression.isStarItem) ∧
      (∀ x ∈ values, x ∈ values2) ∧
      (values.Sorted (· < ·) → values2.Sorted (· < ·)) ∧
      (∀ raw ∈ items, ∃ contrib,
        CronExpression.expand_item spec raw = Except.ok contrib ∧
        ∀ x ∈ contrib, x ∈ values2) := by
  intro items
  induction items with
  | nil =>
    intro values wildcard values2 wildcard2 h
    rw [CronExpression.expand_field_loop] at h
    simp only [Except.ok.injEq, Prod.mk.injEq] at h
    obtain ⟨hv, hw⟩ := h
    subst hv
    subst hw
    exact ⟨by simp, fun x hx => hx, fun hs => hs, by simp⟩
  | cons raw rest ih =>
    intro values wildcard values2 wildcard2 h
    rw [CronExpression.expand_field_loop] at h
    cases hitem : CronExpression.expand_item spec raw with
    | error m => rw [hitem] at h; simp [bind, Except.bind] at h
    | ok contrib =>
      rw [hitem] at h
      simp only [bind, Except.bind] at h
      obtain ⟨hw, hmono, hsort, hcov⟩ := ih (setUnion values contrib)
        (wildcard || CronExpression.isStarItem raw) values2 wildcard2 h
      refine ⟨?_, ?_, ?_, ?_⟩
      · rw [hw, List.any_cons]
        cases wildcard <;> cases CronExpression.isStarItem raw <;> simp
      · intro x hx
        exact hmono x ((mem_setUnion x contrib values).mpr (Or.inl hx))
      · intro hs
        exact hsort (sorted_setUnion contrib values hs)
      · intro r hr
        rcases List.mem_cons.mp hr with rfl | hrr
        · exact ⟨contrib, hitem,
            fun x hx => hmono x ((mem_setUnion x contrib values).mpr (Or.inr hx))⟩
        · exact hcov r hrr

/-- Dissection of `_expand_field` on success: the value list is
strictly sorted, within the field bounds, the flag is
`any-star-segment or full-span`, and every segment's contribution is
contained in the list (through the weekday 7↦0 folding). -/
theorem expand_field_ok_spec (token : String) (spec : FieldSpec)
    (vals : List Nat) (w : Bool)
    (h : CronExpression.expand_field token spec = Except.ok (vals, w)) :
    vals.Sorted (· < ·) ∧
    (∀ v ∈ vals, spec.minValue ≤ v ∧ v ≤ spec.maxValue) ∧
    w = ((pySplitComma token).any CronExpression.isStarItem ||
      (vals.length == spec.span)) ∧
    (∀ raw ∈ pySplitComma token, ∃ contrib,
      CronExpression.expand_item spec raw = Except.ok contrib ∧
      ∀ x ∈ contrib,
        (if spec.name = "weekday" then (if x = 7 then 0 else x) else x) ∈ vals) := by
  unfold CronExpression.expand_field at h
  cases hloop : CronExpression.expand_field_loop spec (pySplitComma token) [] false with
  | error m => rw [hloop] at h; simp [bind, Except.bind] at h
  | ok p =>
  obtain ⟨values, wildcard⟩ := p
  rw [hloop] at h
  simp only [bind, Except.bind] at h
  obtain ⟨hw, _hmono, hsort, hcov⟩ :=
    expand_field_loop_spec spec (pySplitComma token) [] false values wildcard hloop
  have hvalsorted : values.Sorted (· < ·) := hsort List.sorted_nil
  by_cases hnil : values = []
  · rw [if_pos hnil] at h; simp at h
  · rw [if_neg hnil] at h
    by_cases hwd : spec.name = "weekday"
    · rw [if_pos hwd] at h
      by_cases hrange : ∀ v ∈ setOfList (values.map fun v => if v = 7 then 0 else v),
          spec.minValue ≤ v ∧ v ≤ spec.maxValue
      · rw [if_pos hrange] at h
        simp only [Except.ok.injEq, Prod.mk.injEq] at h
        obtain ⟨hvals, hwEq⟩ := h
        subst hvals
        subst hwEq
        refine ⟨sorted_setUnion _ [] List.sorted_nil, hrange, ?_, ?_⟩
        · rw [hw]
          simp
        · intro raw hraw
          obtain ⟨contrib, hc, hsub⟩ := hcov raw hraw
          refine ⟨contrib, hc, ?_⟩
          intro x hx
          rw [if_pos hwd, mem_setOfList]
          exact List.mem_map_of_mem _ (hsub x hx)
      · rw [if_neg hrange] at h; simp at h
    · rw [if_neg hwd] at h
      by_cases hrange : ∀ v ∈ values, spec.minValue ≤ v ∧ v ≤ spec.maxValue
      · rw [if_pos hrange] at h
        simp only [Except.ok.injEq, Prod.mk.injEq] at h
        obtain ⟨hvals, hwEq⟩ := h
        subst hvals
        subst hwEq
        refine ⟨hvalsorted, hrange, ?_, ?_⟩
        · rw [hw]
          simp
        · intro raw hraw
          obtain ⟨contrib, hc, hsub⟩ := hcov raw hraw
          refine ⟨contrib, hc, ?_⟩
          intro x hx
          rw [if_neg hwd]
          exact hsub x hx
      · rw [if_neg hrange] at h; simp at h

/-- A strictly sorted list of naturals bounded below by `a` and above
by `b` has at most `b + 1 - a` elements. -/
theorem sorted_bounded_length_le (b : Nat) :
    ∀ (l : List Nat) (a : Nat), l.Sorted (· < ·) →
      (∀ v ∈ l, a ≤ v) → (∀ v ∈ l, v ≤ b) → l.length ≤ b + 1 - a := by
  intro l
  induction l with
  | nil => intro a _ _ _; simp
  | cons x xs ih =>
    intro a hs hlb hub
    have hax : a ≤ x := hlb x (List.mem_cons_self x xs)
    have hxb : x ≤ b := hub x (List.mem_cons_self x xs)
    have h2 := ih (x + 1) (List.sorted_cons.mp hs).2
      (fun v hv => Nat.succ_le_of_lt ((List.sorted_cons.mp hs).1 v hv))
      (fun v hv => hub v (List.mem_cons_of_mem x hv))
    simp only [List.length_cons]
    omega

/-- A strictly sorted list of naturals inside `[a, b]` with exactly
`b + 1 - a` elements is the whole interval. -/
theorem sorted_bounded_full (b : Nat) :
    ∀ (l : List Nat) (a : Nat), l.Sorted (· < ·) →
      (∀ v ∈ l, a ≤ v ∧ v ≤ b) → l.length = b + 1 - a →
      l = List.range' a (b + 1 - a) := by
  intro l
  induction l with
  | nil =>
    intro a _ _ hlen
    rw [← hlen]
    rfl
  | cons x xs ih =>
    intro a hs hb hlen
    have hax : a ≤ x := (hb x (List.mem_cons_self x xs)).1
    have hxb : x ≤ b := (hb x (List.mem_cons_self x xs)).2
    have hxa : x = a := by
      by_contra hne
      have hlb : ∀ v ∈ x :: xs, x ≤ v := by
        intro v hv
        rcases List.mem_cons.mp hv with rfl | hvx
        · exact Nat.le_refl v
        · exact Nat.le_of_lt ((List.sorted_cons.mp hs).1 v hvx)
      have hcount := sorted_bounded_length_le b (x :: xs) x hs hlb
        (fun v hv => (hb v hv).2)
      rw [hlen] at hcount
      simp only [List.length_cons] at hlen hcount
      omega
    subst hxa
    have hxs : xs = List.range' (x + 1) (b + 1 - (x + 1)) := by
      refine ih (x + 1) (List.sorted_cons.mp hs).2 ?_ ?_
      · intro v hv
        exact ⟨Nat.succ_le_of_lt ((List.sorted_cons.mp hs).1 v hv),
          (hb v (List.mem_cons_of_mem x hv)).2⟩
      · simp only [List.length_cons] at hlen
        omega
    rw [hxs]
    have hone : b + 1 - x = (b - x) + 1 := by omega
    have htwo : b + 1 - (x + 1) = b - x := by omega
    rw [hone, htwo]
    rfl

/-- The wildcard flag of `_expand_field` is set exactly when a segment
is literally `*` or the union of the segments covers the full
inclusive range of the field. -/
theorem expand_field_wildcard_iff (token : String) (spec : FieldSpec)
    (vals : List Nat) (w : Bool)
    (h : CronExpression.expand_field token spec = Except.ok (vals, w))
    (hspan : spec.span = spec.maxValue + 1 - spec.minValue) :
    w = (hasStarSegment token ||
      decide (vals = List.range' spec.minValue spec.span)) := by
  obtain ⟨hsort, hb, hw, _⟩ := expand_field_ok_spec token spec vals w h
  rw [hw]
  have hss : hasStarSegment token =
      (pySplitComma token).any CronExpression.isStarItem := rfl
  rw [hss]
  congr 1
  by_cases hfull : vals = List.range' spec.minValue spec.span
  · rw [hfull]
    simp [List.length_range']
  · have hlen : vals.length ≠ spec.span := by
      intro hl
      apply hfull
      rw [hspan] at hl
      rw [hspan]
      exact sorted_bounded_full spec.maxValue vals spec.minValue hsort hb hl
    simp [hfull, hlen]

/-! ## C2: the calendar table and the wildcard flag -/

/-- C2 counterexample to the claim as stated: in `* * * * */2` the
weekday field expands to `{0, 2, 4, 6}`, whose union does not cover the
full range 0..6, and no weekday segment is literally `*`; the parsed
expression therefore does not flag the weekday field wildcard,
contradicting the claim's assertion that a `*/2` day-of-week segment
makes the field wildcard. -/
theorem C2_counterexample :
    CronExpression.parse "* * * * */2" = Except.ok slashTwoCron ∧
    slashTwoCron.weekday_field = [0, 2, 4, 6] ∧
    slashTwoCron.weekday_field ≠ List.range' 0 7 ∧
    slashTwoCron.weekday_wildcard = false :=
  ⟨by decide, by decide, by decide, by decide⟩

/-- A successful parse means every field token expanded into the
corresponding field list and wildcard flag. -/
theorem parse_fields (s t0 t1 t2 t3 t4 : String) (e : CronExpression)
    (hsplit : pySplitWhitespace s = [t0, t1, t2, t3, t4])
    (hp : CronExpression.parse s = Except.ok e) :
    CronExpression.expand_field t0 minuteSpec =
      Except.ok (e.minute_field, e.minute_wildcard) ∧
    CronExpression.expand_field t1 hourSpec =
      Except.ok (e.hour_field, e.hour_wildcard) ∧
    CronExpression.expand_field t2 daySpec =
      Except.ok (e.day_field, e.day_wildcard) ∧
    CronExpression.expand_field t3 monthSpec =
      Except.ok (e.month_field, e.month_wildcard) ∧
    CronExpression.expand_field t4 weekdaySpec =
      Except.ok (e.weekday_field, e.weekday_wildcard) := by
  rw [CronExpression.parse, hsplit] at hp
  simp only [] at hp
  cases h0 : CronExpression.expand_field t0 minuteSpec with
  | error m => rw [h0] at hp; simp [bind, Except.bind] at hp
  | ok f0 =>
  rw [h0] at hp
  simp only [bind, Except.bind] at hp
  cases h1 : CronExpression.expand_field t1 hourSpec with
  | error m => rw [h1] at hp; simp at hp
  | ok f1 =>
  rw [h1] at hp
  simp only [] at hp
  cases h2 : CronExpression.expand_field t2 daySpec with
  | error m => rw [h2] at hp; simp at hp
  | ok f2 =>
  rw [h2] at hp
  simp only [] at hp
  cases h3 : CronExpression.expand_field t3 monthSpec with
  | error m => rw [h3] at hp; simp at hp
  | ok f3 =>
  rw [h3] at hp
  simp only [] at hp
  cases h4 : CronExpression.expand_field t4 weekdaySpec with
  | error m => rw [h4] at hp; simp at hp
  | ok f4 =>
  rw [h4] at hp
  simp only [Except.ok.injEq] at hp
  rw [← hp]
  exact ⟨rfl, rfl, rfl, rfl, rfl⟩

theorem calendar_ok_eq_specTable :
    ∀ a b c d, CronExpression.calendar_ok a b c d = specCalendarTable a b c d := by
  decide

/-- C2 (amended): for every parsed cron expression, the match predicate
is the conjunction of the minute, hour and month memberships with
exactly the specification's DOM/DOW table, where a field is flagged
wildcard exactly when one of its comma segments is literally `*` (or
empty, which strips to `*`) or the union of its segments equals the
field's full inclusive range.  A `*/2` day-of-week segment yields the
union `{0, 2, 4, 6}`, which is not the full range, so it does not make
the field wildcard. -/
theorem C2_calendar_table (s t0 t1 t2 t3 t4 : String) (e : CronExpression)
    (hsplit : pySplitWhitespace s = [t0, t1, t2, t3, t4])
    (hp : CronExpression.parse s = Except.ok e) :
    (∀ M, e.matchesAt M =
      (decide (minuteOfMinutes M ∈ e.minute_field) &&
       decide (hourOfMinutes M ∈ e.hour_field) &&
       decide (monthOfMinutes M ∈ e.month_field) &&
       specCalendarTable e.day_wildcard e.weekday_wildcard
         (decide (dayOfMinutes M ∈ e.day_field))
         (decide (weekdayOfMinutes M ∈ e.weekday_field)))) ∧
    e.minute_wildcard =
      (hasStarSegment t0 || decide (e.minute_field = List.range' 0 60)) ∧
    e.hour_wildcard =
      (hasStarSegment t1 || decide (e.hour_field = List.range' 0 24)) ∧
    e.day_wildcard =
      (hasStarSegment t2 || decide (e.day_field = List.range' 1 31)) ∧
    e.month_wildcard =
      (hasStarSegment t3 || decide (e.month_field = List.range' 1 12)) ∧
    e.weekday_wildcard =
      (hasStarSegment t4 || decide (e.weekday_field = List.range' 0 7)) := by
  obtain ⟨h0, h1, h2, h3, h4⟩ := parse_fields s t0 t1 t2 t3 t4 e hsplit hp
  refine ⟨?_, ?_, ?_, ?_, ?_, ?_⟩
  · intro M
    rw [CronExpression.matchesAt, calendar_ok_eq_specTable]
  · exact expand_field_wildcard_iff t0 minuteSpec _ _ h0 (by decide)
  · exact expand_field_wildcard_iff t1 hourSpec _ _ h1 (by decide)
  · exact expand_field_wildcard_iff t2 daySpec _ _ h2 (by decide)
  · exact expand_field_wildcard_iff t3 monthSpec _ _ h3 (by decide)
  · exact expand_field_wildcard_iff t4 weekdaySpec _ _ h4 (by decide)

/-- Witness for the amended C2 at `* * * * */2`. -/
theorem C2_calendar_table_witness :
    pySplitWhitespace "* * * * */2" = ["*", "*", "*", "*", "*/2"] ∧
    CronExpression.parse "* * * * */2" = Except.ok slashTwoCron ∧
    ((∀ M, slashTwoCron.matchesAt M =
      (decide (minuteOfMinutes M ∈ slashTwoCron.minute_field) &&
       decide (hourOfMinutes M ∈ slashTwoCron.hour_field) &&
       decide (monthOfMinutes M ∈ slashTwoCron.month_field) &&
       specCalendarTable slashTwoCron.day_wildcard
         slashTwoCron.weekday_wildcard
         (decide (dayOfMinutes M ∈ slashTwoCron.day_field))
         (decide (weekdayOfMinutes M ∈ slashTwoCron.weekday_field)))) ∧
     slashTwoCron.minute_wildcard =
       (hasStarSegment "*" ||
        decide (slashTwoCron.minute_field = List.range' 0 60)) ∧
     slashTwoCron.hour_wildcard =
       (hasStarSegment "*" ||
        decide (slashTwoCron.hour_field = List.range' 0 24)) ∧
     slashTwoCron.day_wildcard =
       (hasStarSegment "*" ||
        decide (slashTwoCron.day_field = List.range' 1 31)) ∧
     slashTwoCron.month_wildcard =
       (hasStarSegment "*" ||
        decide (slashTwoCron.month_field = List.range' 1 12)) ∧
     slashTwoCron.weekday_wildcard =
       (hasStarSegment "*/2" ||
        decide (slashTwoCron.weekday_field = List.range' 0 7))) :=
  ⟨by decide, by decide,
   C2_calendar_table "* * * * */2" "*" "*" "*" "*" "*/2" slashTwoCron
     (by decide) (by decide)⟩

/-! ## C9: empty comma segments -/

/-- C9 counterexample to the claim as stated: the minute token `,5-1`
contains an empty comma segment, yet parsing fails — the other segment
`5-1` is an inverted range.  The empty segment alone does not make the
token parse. -/
theorem C9_counterexample :
    ("" ∈ pySplitComma ",5-1") ∧ pyStrip "" = "" ∧
    CronExpression.expand_field ",5-1" minuteSpec =
      Except.error "Cron range start greater than end" ∧
    CronExpression.parse ",5-1 * * * *" =
      Except.error "Cron range start greater than end" :=
  ⟨by decide, by decide, by decide, by decide⟩

/-- C9 (amended): a cron field token containing an empty
comma-separated segment treats that segment as `*`; provided the
remaining segments are valid (so the field parses at all), the field
expands to the full inclusive range and is flagged wildcard. -/
theorem C9_empty_segment (token : String) (spec : FieldSpec)
    (vals : List Nat) (w : Bool) (raw : String)
    (hspec : spec = minuteSpec ∨ spec = hourSpec ∨ spec = daySpec ∨
      spec = monthSpec ∨ spec = weekdaySpec)
    (hmem : raw ∈ pySplitComma token) (hraw : pyStrip raw = "")
    (hok : CronExpression.expand_field token spec = Except.ok (vals, w)) :
    vals = List.range' spec.minValue (spec.maxValue + 1 - spec.minValue) ∧
    w = true := by
  have hstar : CronExpression.isStarItem raw = true := by
    rw [CronExpression.isStarItem, CronExpression.normalizeItem, if_pos hraw]
    rfl
  obtain ⟨hsort, hb, hw, hcov⟩ := expand_field_ok_spec token spec vals w hok
  obtain ⟨contrib, hitem, hsub⟩ := hcov raw hmem
  have hmm : spec.minValue ≤ spec.maxValue := by
    rcases hspec with h | h | h | h | h <;> subst h <;> decide
  rw [expand_item_star spec raw hstar hmm] at hitem
  have hcontrib : contrib =
      List.range' spec.minValue (spec.maxValue + 1 - spec.minValue) :=
    (Except.ok.inj hitem).symm
  subst hcontrib
  have hsup : ∀ v ∈ List.range' spec.minValue (spec.maxValue + 1 - spec.minValue),
      v ∈ vals := by
    intro v hv
    have hx := hsub v hv
    rcases hspec with h | h | h | h | h <;> subst h
    · rw [if_neg (by decide)] at hx; exact hx
    · rw [if_neg (by decide)] at hx; exact hx
    · rw [if_neg (by decide)] at hx; exact hx
    · rw [if_neg (by decide)] at hx; exact hx
    · rw [if_pos (by decide)] at hx
      have hv7 : v ≠ 7 := by
        have := (List.mem_range'_1.mp hv).2
        simp only [weekdaySpec] at this
        omega
      rw [if_neg hv7] at hx
      exact hx
  have hnodup : (List.range' spec.minValue
      (spec.maxValue + 1 - spec.minValue)).Nodup :=
    (List.pairwise_lt_range' spec.minValue _ 1 (by omega)).imp Nat.ne_of_lt
  have hlen_ge : spec.maxValue + 1 - spec.minValue ≤ vals.length := by
    have hsp := (hnodup.subperm hsup).length_le
    rwa [List.length_range'] at hsp
  have hlen_le : vals.length ≤ spec.maxValue + 1 - spec.minValue :=
    sorted_bounded_length_le spec.maxValue vals spec.minValue hsort
      (fun v hv => (hb v hv).1) (fun v hv => (hb v hv).2)
  have hfull := sorted_bounded_full spec.maxValue vals spec.minValue hsort hb
    (Nat.le_antisymm hlen_le hlen_ge)
  refine ⟨hfull, ?_⟩
  rw [hw]
  have hany : (pySplitComma token).any CronExpression.isStarItem = true :=
    List.any_eq_true.mpr ⟨raw, hmem, hstar⟩
  rw [hany]
  rfl

/-- Witness for the amended C9 on the minute token `1,`. -/
theorem C9_empty_segment_witness :
    ("" ∈ pySplitComma "1,") ∧ pyStrip "" = "" ∧
    CronExpression.expand_field "1," minuteSpec =
      Except.ok (List.range' 0 60, true) ∧
    (List.range' 0 60 =
      List.range' minuteSpec.minValue (minuteSpec.maxValue + 1 - minuteSpec.minValue) ∧
     (true : Bool) = true) :=
  ⟨by decide, by decide, by decide,
   C9_empty_segment "1," minuteSpec (List.range' 0 60) true "" (Or.inl rfl)
     (by decide) (by decide) (by decide)⟩

/-! ## C8: the due-task ordering -/

theorem pairwise_lex_orderedInsert (a : TaskRow) (L : List TaskRow)
    (hL : L.Pairwise dueLex) (ha : ∀ b ∈ L, a.id < b.id) :
    (List.orderedInsert
      (fun x y => x.next_run_at.getD 0 ≤ y.next_run_at.getD 0) a L).Pairwise
      dueLex := by
  induction L with
  | nil => simp [List.orderedInsert]
  | cons b l ih =>
    rw [List.orderedInsert]
    by_cases hab : a.next_run_at.getD 0 ≤ b.next_run_at.getD 0
    · rw [if_pos hab]
      refine List.Pairwise.cons ?_ hL
      intro c hc
      have haid : a.id < c.id := ha c hc
      have hac : a.next_run_at.getD 0 ≤ c.next_run_at.getD 0 := by
        rcases List.mem_cons.mp hc with rfl | hcl
        · exact hab
        · have hbc := (List.pairwise_cons.mp hL).1 c hcl
          rcases hbc with h | ⟨h, _⟩
          · exact hab.trans (Nat.le_of_lt h)
          · rw [← h]; exact hab
      rcases Nat.lt_or_ge (a.next_run_at.getD 0) (c.next_run_at.getD 0) with h | h
      · exact Or.inl h
      · exact Or.inr ⟨Nat.le_antisymm hac h, Nat.le_of_lt haid⟩
    · rw [if_neg hab]
      have hba : b.next_run_at.getD 0 < a.next_run_at.getD 0 :=
        Nat.lt_of_not_le hab
      refine List.Pairwise.cons ?_
        (ih (List.pairwise_cons.mp hL).2
          (fun x hx => ha x (List.mem_cons_of_mem b hx)))
      intro c hc
      rcases (List.mem_orderedInsert _).mp hc with rfl | hcl
      · exact Or.inl hba
      · exact (List.pairwise_cons.mp hL).1 c hcl

theorem pairwise_lex_insertionSort (L : List TaskRow)
    (hL : L.Pairwise (fun x y => x.id < y.id)) :
    (List.insertionSort
      (fun x y => x.next_run_at.getD 0 ≤ y.next_run_at.getD 0) L).Pairwise
      dueLex := by
  induction L with
  | nil => simp [List.insertionSort]
  | cons b l ih =>
    rw [List.insertionSort]
    refine pairwise_lex_orderedInsert b _
      (ih (List.pairwise_cons.mp hL).2) ?_
    intro x hx
    exact (List.pairwise_cons.mp hL).1 x ((List.mem_insertionSort _).mp hx)

/-- C8: on a store whose rows are in ascending id (rowid) order,
`fetch_due_tasks moment` returns exactly the schedule-triggered, active
tasks with a non-null `next_run_at` at or before `moment`, ordered by
ascending `next_run_at` with ties broken by ascending task id; the tick
loop of `_process_due_tasks` folds over this list in order. -/
theorem C8_due_order (db : Db) (moment : Nat)
    (hids : db.tasks.Pairwise (fun a b => a.id < b.id)) :
    (∀ t, t ∈ Database.fetch_due_tasks db moment ↔
      (t ∈ db.tasks ∧ t.trigger_type = "schedule" ∧ t.is_active = true ∧
        ∃ n, t.next_run_at = some n ∧ n ≤ moment)) ∧
    (Database.fetch_due_tasks db moment).Pairwise dueLex := by
  constructor
  · intro t
    unfold Database.fetch_due_tasks
    rw [List.mem_insertionSort, List.mem_filter]
    simp only [Bool.and_eq_true, beq_iff_eq, decide_eq_true_eq]
    constructor
    · rintro ⟨hmem, ⟨⟨htr, hact⟩, hsome⟩, hle⟩
      refine ⟨hmem, htr, hact, ?_⟩
      cases hnr : t.next_run_at with
      | none => rw [hnr] at hsome; simp at hsome
      | some n =>
        rw [hnr] at hle
        exact ⟨n, rfl, hle⟩
    · rintro ⟨hmem, htr, hact, n, hnr, hle⟩
      exact ⟨hmem, ⟨⟨htr, hact⟩, by rw [hnr]; rfl⟩, by rw [hnr]; exact hle⟩
  · unfold Database.fetch_due_tasks
    exact pairwise_lex_insertionSort _ (hids.filter _)

/-- Witness for C8: with a `next_run_at` tie between tasks 1 and 3 and
an earlier task 2, the due list at moment 200 is `[2, 1, 3]`. -/
theorem C8_due_order_witness :
    c8db.tasks.Pairwise (fun a b => a.id < b.id) ∧
    Database.fetch_due_tasks c8db 200 =
      [dueRowAt 2 60, dueRowAt 1 120, dueRowAt 3 120] ∧
    ((∀ t, t ∈ Database.fetch_due_tasks c8db 200 ↔
      (t ∈ c8db.tasks ∧ t.trigger_type = "schedule" ∧ t.is_active = true ∧
        ∃ n, t.next_run_at = some n ∧ n ≤ 200)) ∧
     (Database.fetch_due_tasks c8db 200).Pairwise dueLex) :=
  ⟨by decide, by decide, C8_due_order c8db 200 (by decide)⟩

/-! ## C6: normalization of stored `pre_task_ids` -/

/-- C6 counterexample to the claim as stated: on an empty store whose
autoincrement counter is about to hand out id 1, a create payload
without an `id` field listing `pre_task_ids = [1]` produces a row with
id 1 whose stored `pre_task_ids` is `[1]` — it contains the task's own
id, because the normalization only knows the payload `id`, not the id
the insert will assign. -/
theorem C6_counterexample :
    c6payload.id = JValue.absent ∧
    (Database.create_task c6env c6db0 c6payload 0).map
        (fun r => (r.2.id, r.2.pre_task_ids)) = Except.ok (1, [1]) :=
  ⟨by decide, by decide⟩

/-- C6 (amended): every row produced by `create_task` or `update_task`
stores `pre_task_ids` as a duplicate-free subsequence (order preserved)
of the decoded input, with the id known at normalization time removed:
the payload `id` field on create, and the existing row's id on an
update whose payload does not supply an `id` — the id newly assigned
by `create_task` is not excluded, since the validator never sees it. -/
theorem C6_pre_ids_normalized (env : HostEnv) (db : Db)
    (payload : TaskPayload) (now : Nat) :
    (∀ db2 row raw,
      Database.create_task env db payload now = Except.ok (db2, row) →
      decoded_pre_ids payload = Except.ok raw →
      row.pre_task_ids.Nodup ∧ row.pre_task_ids.Sublist raw ∧
      ∀ cid, payload.id = .val cid → cid ∉ row.pre_task_ids) ∧
    (∀ task_id db2 row,
      Database.update_task env db task_id payload now =
        Except.ok (some (db2, row)) →
      ∃ ex raw, Database.get_task db task_id = some ex ∧
        decoded_pre_ids
          (Database.mergePayload (Database.rowToPayload ex) payload) =
          Except.ok raw ∧
        row.pre_task_ids.Nodup ∧ row.pre_task_ids.Sublist raw ∧
        (payload.id = .absent → (task_id : Int) ∉ row.pre_task_ids)) := by
  constructor
  · intro db2 row raw hc hraw
    obtain ⟨task, hp, _, _, hpre⟩ := create_task_spec env db payload now db2 row hc
    obtain ⟨_, raw2, hraw2, hclean⟩ := prepare_payload_spec env payload false now task hp
    rw [hraw] at hraw2
    have hraweq : raw = raw2 := by
      have := Except.ok.inj hraw2
      exact this
    subst hraweq
    rw [hpre, hclean]
    refine ⟨clean_pre_ids_nodup _ _, clean_pre_ids_sublist _ _, ?_⟩
    intro cid hcid
    have hcur : current_task_id payload = some cid := by
      rw [current_task_id, hcid]
    rw [hcur]
    exact clean_pre_ids_not_mem cid raw
  · intro task_id db2 row hu
    obtain ⟨ex, task, p2, hg, hexid, _hp2acc, hp2id, hp2pre, hp, _hrowacc,
      hrowpre, _hrowid⟩ := update_task_spec env db task_id payload now db2 row hu
    obtain ⟨_, raw, hraw, hclean⟩ := prepare_payload_spec env _ true now task hp
    have hfield : (Database.mergePayload (Database.rowToPayload ex)
        payload).pre_task_ids =
        (Database.mergePayload (Database.rowToPayload ex) p2).pre_task_ids := by
      show Database.mergeField (Database.rowToPayload ex).pre_task_ids
          payload.pre_task_ids = Database.mergeField
          (Database.rowToPayload ex).pre_task_ids p2.pre_task_ids
      rw [hp2pre]
    refine ⟨ex, raw, hg, (decoded_pre_ids_congr _ _ hfield).trans hraw,
      by rw [hrowpre, hclean]; exact clean_pre_ids_nodup _ _,
      by rw [hrowpre, hclean]; exact clean_pre_ids_sublist _ _, ?_⟩
    intro habs
    rw [hrowpre, hclean]
    have hmid : (Database.mergePayload (Database.rowToPayload ex) p2).id =
        JValue.val (ex.id : Int) := by
      show Database.mergeField (Database.rowToPayload ex).id p2.id = _
      rw [hp2id, habs]
      rfl
    have hcur : current_task_id
        (Database.mergePayload (Database.rowToPayload ex) p2) =
        some (ex.id : Int) := by
      rw [current_task_id, hmid]
    rw [hcur, hexid]
    exact clean_pre_ids_not_mem (task_id : Int) raw

/-- Witness for the amended C6: a create payload with `id = 5` passing
`pre_task_ids` as the JSON string "[3, 3, 5, 4]" stores `[3, 4]` —
ordered, de-duplicated, and without the payload id — and an update of
row 1 passing `pre_task_ids = [1, 2, 2, 7]` stores `[2, 7]` — ordered,
de-duplicated, and without the existing row's id. -/
theorem C6_pre_ids_normalized_witness :
    Database.create_task c6env c6db0 c6wPayload 0 = Except.ok (c6wDb2, c6wRow) ∧
    decoded_pre_ids c6wPayload = Except.ok [3, 3, 5, 4] ∧
    c6wRow.pre_task_ids = [3, 4] ∧
    (c6wRow.pre_task_ids.Nodup ∧ c6wRow.pre_task_ids.Sublist [3, 3, 5, 4] ∧
      ∀ cid, c6wPayload.id = .val cid → cid ∉ c6wRow.pre_task_ids) ∧
    Database.update_task c6env c6wDb2 1 c6updPayload 0 =
      Except.ok (some (c6updDb, c6updRow)) ∧
    c6updRow.pre_task_ids = [2, 7] ∧
    (∃ ex raw, Database.get_task c6wDb2 1 = some ex ∧
      decoded_pre_ids
        (Database.mergePayload (Database.rowToPayload ex) c6updPayload) =
        Except.ok raw ∧
      c6updRow.pre_task_ids.Nodup ∧ c6updRow.pre_task_ids.Sublist raw ∧
      (c6updPayload.id = .absent → (1 : Int) ∉ c6updRow.pre_task_ids)) :=
  ⟨by decide, by decide, by decide,
   (C6_pre_ids_normalized c6env c6db0 c6wPayload 0).1 c6wDb2 c6wRow [3, 3, 5, 4]
     (by decide) (by decide),
   by decide, by decide,
   (C6_pre_ids_normalized c6env c6wDb2 c6updPayload 0).2 1 c6updDb c6updRow
     (by decide)⟩

/-! ## C10: account substitution on non-POSIX hosts -/

/-- C10 counterexample to the claim as stated: on the non-POSIX host
`c10env` (default account `bob`), updating a stored row whose account
is `alice` with a payload whose `account` field is absent fails
validation — the merge reuses the stored account instead of
substituting the default. -/
theorem C10_counterexample :
    c10updPayload.account = JValue.absent ∧
    Database.update_task c10env c10db 1 c10updPayload 0 =
      Except.error (windowsAccountError "bob") :=
  ⟨by decide, by decide⟩

/-- `_prepare_task_payload` fails with the only-supported-account error
when, on a non-POSIX host, the (merged) payload carries a non-empty
account different from the default. -/
theorem prepare_account_error (env : HostEnv) (payload : TaskPayload)
    (u : Bool) (now : Nat) (s n : String)
    (hposix : env.posix_account_support = false)
    (hdef : env.default_account_name ≠ "")
    (hacc : payload.account = .val s) (hs : pyStrip s ≠ "")
    (hne : pyStrip s ≠ env.default_account_name)
    (hname : payload.name = .val n) (hn : pyStrip n ≠ "")
    (htrig : payload.trigger_type = .absent ∨
      payload.trigger_type = .val "schedule" ∨
      payload.trigger_type = .val "event") :
    prepare_task_payload env payload u now =
      Except.error (windowsAccountError env.default_account_name) := by
  obtain ⟨tt, htt⟩ : ∃ tt, triggerTypeOf payload.trigger_type = Except.ok tt := by
    rcases htrig with h | h | h <;> rw [h] <;> simp [triggerTypeOf]
  unfold prepare_task_payload
  rw [htt, hname, hacc]
  simp only [bind, Except.bind, stripOrDefault]
  rw [if_neg hn]
  have hcond : ¬ (pyStrip s = "" ∧ ¬ env.posix_account_support = true) :=
    fun hb => hs hb.1
  rw [if_neg hcond, if_neg hs,
    ensure_account_mismatch env (pyStrip s) hposix hdef hs hne]

/-- C10 (amended): on a non-POSIX host, `create_task` with an absent or
empty account and `update_task` with an explicitly empty account store
the process's default account; `update_task` with the account field
absent reuses the stored row's account, which passes validation only
when it equals the default and otherwise fails; and a non-empty account
different from the default fails either operation with the validation
error naming the only supported account. -/
theorem C10_default_account (env : HostEnv) (db : Db)
    (payload : TaskPayload) (now : Nat)
    (hposix : env.posix_account_support = false)
    (hdef : env.default_account_name ≠ "") :
    (∀ db2 row,
      Database.create_task env db payload now = Except.ok (db2, row) →
      (payload.account = .absent ∨ ∃ s, payload.account = .val s ∧ pyStrip s = "") →
      row.account = env.default_account_name) ∧
    (∀ task_id db2 row s,
      Database.update_task env db task_id payload now =
        Except.ok (some (db2, row)) →
      payload.account = .val s → pyStrip s = "" →
      row.account = env.default_account_name) ∧
    (∀ s n, payload.account = .val s → pyStrip s ≠ "" →
      pyStrip s ≠ env.default_account_name →
      payload.name = .val n → pyStrip n ≠ "" →
      (payload.trigger_type = .absent ∨
        payload.trigger_type = .val "schedule" ∨
        payload.trigger_type = .val "event") →
      Database.create_task env db payload now =
        Except.error (windowsAccountError env.default_account_name)) ∧
    (∀ task_id ex db2 row,
      Database.get_task db task_id = some ex →
      payload.account = .absent →
      Database.update_task env db task_id payload now =
        Except.ok (some (db2, row)) →
      row.account = env.default_account_name ∧
      (pyStrip ex.account ≠ "" →
        pyStrip ex.account = env.default_account_name)) ∧
    (∀ task_id ex,
      Database.get_task db task_id = some ex →
      payload.account = .absent → payload.name = .absent →
      payload.trigger_type = .absent →
      pyStrip ex.name ≠ "" →
      (ex.trigger_type = "schedule" ∨ ex.trigger_type = "event") →
      pyStrip ex.account ≠ "" →
      pyStrip ex.account ≠ env.default_account_name →
      Database.update_task env db task_id payload now =
        Except.error (windowsAccountError env.default_account_name)) ∧
    (∀ task_id ex s,
      Database.get_task db task_id = some ex →
      payload.account = .val s → payload.name = .absent →
      payload.trigger_type = .absent →
      pyStrip ex.name ≠ "" →
      (ex.trigger_type = "schedule" ∨ ex.trigger_type = "event") →
      pyStrip s ≠ "" → pyStrip s ≠ env.default_account_name →
      Database.update_task env db task_id payload now =
        Except.error (windowsAccountError env.default_account_name)) := by
  have key : ∀ (p : TaskPayload) (u : Bool) (task : PreparedTask),
      prepare_task_payload env p u now = Except.ok task →
      stripOrDefault p.account "" = Except.ok "" →
      task.account = env.default_account_name := by
    intro p u task hp hstrip
    obtain ⟨⟨acc0, hac, hen⟩, _⟩ := prepare_payload_spec env p u now task hp
    rw [hstrip] at hac
    have hacc0 : acc0 = "" := (Except.ok.inj hac).symm
    subst hacc0
    rw [if_pos ⟨rfl, by rw [hposix]; exact Bool.false_ne_true⟩] at hen
    rw [ensure_account_default env hposix hdef] at hen
    exact (Except.ok.inj hen).symm
  have mergedTrig : ∀ (ex : TaskRow) (p2 : TaskPayload),
      p2.trigger_type = JValue.absent →
      (ex.trigger_type = "schedule" ∨ ex.trigger_type = "event") →
      ((Database.mergePayload (Database.rowToPayload ex) p2).trigger_type =
          JValue.absent ∨
        (Database.mergePayload (Database.rowToPayload ex) p2).trigger_type =
          JValue.val "schedule" ∨
        (Database.mergePayload (Database.rowToPayload ex) p2).trigger_type =
          JValue.val "event") := by
    intro ex p2 hp2t htrigex
    have hmt : (Database.mergePayload (Database.rowToPayload ex) p2).trigger_type =
        JValue.val ex.trigger_type := by
      show Database.mergeField (Database.rowToPayload ex).trigger_type
          p2.trigger_type = _
      rw [hp2t]
      rfl
    rcases htrigex with h | h
    · exact Or.inr (Or.inl (by rw [hmt, h]))
    · exact Or.inr (Or.inr (by rw [hmt, h]))
  refine ⟨?_, ?_, ?_, ?_, ?_, ?_⟩
  · intro db2 row hc hacc
    obtain ⟨task, hp, _, hrowacc, _⟩ := create_task_spec env db payload now db2 row hc
    rw [hrowacc]
    refine key payload false task hp ?_
    rcases hacc with h | ⟨s, h, hsnil⟩
    · rw [h]; decide
    · rw [h]; simp [stripOrDefault, hsnil]
  · intro task_id db2 row s hu hacc hsnil
    obtain ⟨ex, task, p2, _hg, _hexid, hp2acc, _hp2id, _hp2pre, hp, hrowacc, _, _⟩ :=
      update_task_spec env db task_id payload now db2 row hu
    rw [hrowacc]
    refine key _ true task hp ?_
    have hmacc : (Database.mergePayload (Database.rowToPayload ex) p2).account =
        JValue.val s := by
      show Database.mergeField (Database.rowToPayload ex).account p2.account = _
      rw [hp2acc, hacc]
      rfl
    rw [hmacc]
    simp [stripOrDefault, hsnil]
  · intro s n hacc hs hne hname hn htrig
    unfold Database.create_task
    rw [prepare_account_error env payload false now s n hposix hdef hacc hs hne
      hname hn htrig]
    rfl
  · intro task_id ex db2 row hg hacc hu
    obtain ⟨ex2, task, p2, hg2, _hexid, hp2acc, _hp2id, _hp2pre, hp, hrowacc, _, _⟩ :=
      update_task_spec env db task_id payload now db2 row hu
    rw [hg] at hg2
    have hex : ex = ex2 := Option.some.inj hg2
    obtain ⟨⟨acc0, hac, hen⟩, _⟩ := prepare_payload_spec env _ true now task hp
    have hmacc : (Database.mergePayload (Database.rowToPayload ex2) p2).account =
        JValue.val ex.account := by
      show Database.mergeField (Database.rowToPayload ex2).account p2.account = _
      rw [hp2acc, hacc, hex]
      rfl
    rw [hmacc] at hac
    have hac2 : (Except.ok (pyStrip ex.account) : Except String String) =
        Except.ok acc0 := hac
    have hacc0 : acc0 = pyStrip ex.account := (Except.ok.inj hac2).symm
    subst hacc0
    constructor
    · rw [hrowacc]
      exact (ensure_account_ok_nonposix env _ task.account hposix hdef hen).1
    · intro hne
      rw [if_neg (fun hb => hne hb.1)] at hen
      exact (ensure_account_ok_nonposix env _ task.account hposix hdef hen).2 hne
  · intro task_id ex hg hacc hname htrigp hexn htrigex hexa hexane
    refine update_task_prepare_error env db task_id payload now ex _ hg ?_
    intro p2 hp2a hp2n hp2t
    have hma : (Database.mergePayload (Database.rowToPayload ex) p2).account =
        JValue.val ex.account := by
      show Database.mergeField (Database.rowToPayload ex).account p2.account = _
      rw [hp2a, hacc]
      rfl
    have hmn : (Database.mergePayload (Database.rowToPayload ex) p2).name =
        JValue.val ex.name := by
      show Database.mergeField (Database.rowToPayload ex).name p2.name = _
      rw [hp2n, hname]
      rfl
    exact prepare_account_error env _ true now ex.account ex.name hposix hdef
      hma hexa hexane hmn hexn
      (mergedTrig ex p2 (hp2t.trans htrigp) htrigex)
  · intro task_id ex s hg hacc hname htrigp hexn htrigex hs hne
    refine update_task_prepare_error env db task_id payload now ex _ hg ?_
    intro p2 hp2a hp2n hp2t
    have hma : (Database.mergePayload (Database.rowToPayload ex) p2).account =
        JValue.val s := by
      show Database.mergeField (Database.rowToPayload ex).account p2.account = _
      rw [hp2a, hacc]
      rfl
    have hmn : (Database.mergePayload (Database.rowToPayload ex) p2).name =
        JValue.val ex.name := by
      show Database.mergeField (Database.rowToPayload ex).name p2.name = _
      rw [hp2n, hname]
      rfl
    exact prepare_account_error env _ true now s ex.name hposix hdef
      hma hs hne hmn hexn
      (mergedTrig ex p2 (hp2t.trans htrigp) htrigex)

/-- Witness for the amended C10: with default account `bob`, a create
payload without an account stores `bob`; the same payload with account
`alice` fails with the only-supported-account error; an update with an
explicitly empty account stores `bob`; an update that omits the account
on a row storing `bob` keeps `bob`; and updates touching a row storing
`alice` (account omitted) or submitting `alice` directly both fail with
the only-supported-account error. -/
theorem C10_default_account_witness :
    c10env.posix_account_support = false ∧
    c10env.default_account_name = "bob" ∧
    Database.create_task c10env c6db0 c10payload 0 =
      Except.ok (c10wDb2, c10wRow) ∧
    c10payload.account = JValue.absent ∧
    c10wRow.account = c10env.default_account_name ∧
    Database.create_task c10env c6db0 c10badPayload 0 =
      Except.error (windowsAccountError c10env.default_account_name) ∧
    Database.update_task c10env c10wDb2 1 c10emptyAccPayload 0 =
      Except.ok (some (c10wDb2, c10wRow)) ∧
    c10wRow.account = c10env.default_account_name ∧
    (c10wRow.account = c10env.default_account_name ∧
      (pyStrip c10wRow.account ≠ "" →
        pyStrip c10wRow.account = c10env.default_account_name)) ∧
    Database.update_task c10env c10db 1 c10updPayload 0 =
      Except.error (windowsAccountError c10env.default_account_name) ∧
    Database.update_task c10env c10db 1 c10updBadPayload 0 =
      Except.error (windowsAccountError c10env.default_account_name) :=
  ⟨by decide, by decide, by decide, by decide,
   (C10_default_account c10env c6db0 c10payload 0 (by decide) (by decide)).1
     c10wDb2 c10wRow (by decide) (Or.inl (by decide)),
   (C10_default_account c10env c6db0 c10badPayload 0 (by decide) (by decide)).2.2.1
     "alice" "t" (by decide) (by decide) (by decide) (by decide) (by decide)
     (Or.inr (Or.inr (by decide))),
   by decide,
   (C10_default_account c10env c10wDb2 c10emptyAccPayload 0 (by decide)
     (by decide)).2.1 1 c10wDb2 c10wRow "" (by decide) (by decide) (by decide),
   (C10_default_account c10env c10wDb2 emptyPayload 0 (by decide)
     (by decide)).2.2.2.1 1 c10wRow c10wDb2 c10wRow (by decide) (by decide)
     (by decide),
   (C10_default_account c10env c10db c10updPayload 0 (by decide)
     (by decide)).2.2.2.2.1 1 c10row (by decide) (by decide) (by decide)
     (by decide) (by decide) (Or.inr (by decide)) (by decide) (by decide),
   (C10_default_account c10env c10db c10updBadPayload 0 (by decide)
     (by decide)).2.2.2.2.2 1 c10row "alice" (by decide) (by decide) (by decide)
     (by decide) (by decide) (Or.inr (by decide)) (by decide) (by decide)⟩

/-! ## C7: executor outcome -/

theorem find?_map_append_fresh (l : List ResultRow) (rid : Nat)
    (f : ResultRow → ResultRow) (hl : ∀ r ∈ l, r.id < rid)
    (new : ResultRow) (hid : new.id = rid) (hfid : (f new).id = rid) :
    ((l ++ [new]).map (fun r => if r.id == rid then f r else r)).find?
      (fun r => r.id == rid) = some (f new) := by
  induction l with
  | nil =>
    simp only [List.nil_append, List.map_cons, List.map_nil, List.find?]
    rw [if_pos (by simp [hid])]
    simp [List.find?, hfid]
  | cons r rest ih =>
    have hr : r.id < rid := hl r (List.mem_cons_self r rest)
    have hne : (r.id == rid) = false := by simp; omega
    simp only [List.cons_append, List.map_cons]
    rw [if_neg (by simp [hne])]
    rw [List.find?]
    rw [hne]
    exact ih (fun x hx => hl x (List.mem_cons_of_mem r hx))

/-- C7: a `TaskRunner` execution always finalizes its result row with a
terminal status and `finished_at` set; when the child process completes,
the status is `success` exactly when the exit code is 0 and the log is
the trimmed concatenation of stdout and stderr; a timeout, a spawn
error, or an account-preparation failure each yield `failed` with a
descriptive message, never an escaping exception. -/
theorem C7_executor_outcome (db : Db) (task : TaskRow) (reason : String)
    (acct : AccountContext) (proc : ProcOutcome) (now : Nat)
    (hfresh : ∀ r ∈ db.results, r.id < db.next_result_id) :
    (∀ home stdout stderr rc, acct = .ok home → proc = .completed stdout stderr rc →
      runnerResult db task reason acct proc now =
        some { id := db.next_result_id, task_id := task.id,
               status := if rc == 0 then "success" else "failed",
               trigger_reason := reason, started_at := now,
               finished_at := some now,
               log := some (pyStrip (stdout ++ stderr)) }) ∧
    (∀ home detail, acct = .ok home → proc = .timedOut detail →
      (runnerResult db task reason acct proc now).map (fun r => (r.status, r.log)) =
        some ("failed", some (timeoutLog TASK_TIMEOUT detail))) ∧
    (∀ home message, acct = .ok home → proc = .runError message →
      (runnerResult db task reason acct proc now).map (fun r => (r.status, r.log)) =
        some ("failed", some message)) ∧
    ((acct = .privilegeRequired ∨ ∃ a, acct = .missingAccount a) →
      (runnerResult db task reason acct proc now).map (fun r => r.status) =
        some "failed") ∧
    ((runnerResult db task reason acct proc now).map
        (fun r => (r.status == "success" || r.status == "failed", r.finished_at)) =
      some (true, some now)) := by
  have main : ∀ status log,
      TaskRunner.execute_script acct proc TASK_TIMEOUT = Except.ok (log, status) ∨
        (∃ e, TaskRunner.execute_script acct proc TASK_TIMEOUT = Except.error e ∧
          log = runnerExceptionLog e ∧ status = "failed") →
      runnerResult db task reason acct proc now =
        some { id := db.next_result_id, task_id := task.id, status := status,
               trigger_reason := reason, started_at := now,
               finished_at := some now, log := some log } := by
    intro status log hcase
    rw [runnerResult, TaskRunner.run]
    have hout :
        (match TaskRunner.execute_script acct proc TASK_TIMEOUT with
          | .ok p => p
          | .error e => (runnerExceptionLog e, "failed")) = (log, status) := by
      rcases hcase with h | ⟨e, he, hl, hs⟩
      · rw [h]
      · rw [he, hl, hs]
    rw [hout]
    rw [Database.record_result_start, Database.finalize_result,
      Database.update_last_run]
    exact find?_map_append_fresh db.results db.next_result_id _ hfresh _ rfl rfl
  refine ⟨?_, ?_, ?_, ?_, ?_⟩
  · intro home stdout stderr rc ha hp
    subst ha; subst hp
    exact main _ _ (Or.inl rfl)
  · intro home detail ha hp
    subst ha; subst hp
    rw [main "failed" (timeoutLog TASK_TIMEOUT detail) (Or.inl rfl)]
    rfl
  · intro home message ha hp
    subst ha; subst hp
    rw [main "failed" message (Or.inl rfl)]
    rfl
  · intro hbad
    rcases hbad with ha | ⟨a, ha⟩ <;> subst ha
    · rw [main "failed" (runnerExceptionLog privilegeRequiredError)
        (Or.inr ⟨_, rfl, rfl, rfl⟩)]
      rfl
    · rw [main "failed" (runnerExceptionLog (missingAccountError a))
        (Or.inr ⟨_, rfl, rfl, rfl⟩)]
      rfl
  · cases acct with
    | missingAccount a =>
      rw [main "failed" (runnerExceptionLog (missingAccountError a))
        (Or.inr ⟨_, rfl, rfl, rfl⟩)]
      rfl
    | privilegeRequired =>
      rw [main "failed" (runnerExceptionLog privilegeRequiredError)
        (Or.inr ⟨_, rfl, rfl, rfl⟩)]
      rfl
    | ok home =>
      cases proc with
      | completed stdout stderr rc =>
        rw [main _ _ (Or.inl rfl)]
        by_cases hrc : rc == 0
        · simp only [TaskRunner.execute_script, hrc, if_true]
          rfl
        · simp only [TaskRunner.execute_script, hrc, if_false]
          rfl
      | timedOut detail =>
        rw [main "failed" (timeoutLog TASK_TIMEOUT detail) (Or.inl rfl)]
        rfl
      | runError message =>
        rw [main "failed" message (Or.inl rfl)]
        rfl

/-- Witness for C7: a child that prints and exits 0 yields a `success`
row with the trimmed stdout++stderr log, and a timeout yields
`failed`. -/
theorem C7_executor_outcome_witness :
    (∀ r ∈ c7db.results, r.id < c7db.next_result_id) ∧
    runnerResult c7db c7task "manual" (.ok none) (.completed "out " " err" 0) 50 =
      some { id := 1, task_id := 1, status := if (0 : Int) == 0 then "success" else "failed",
             trigger_reason := "manual", started_at := 50,
             finished_at := some 50, log := some (pyStrip ("out " ++ " err")) } ∧
    (runnerResult c7db c7task "manual" (.ok none) (.timedOut "boom") 50).map
        (fun r => (r.status, r.log)) =
      some ("failed", some (timeoutLog TASK_TIMEOUT "boom")) :=
  ⟨by decide,
   (C7_executor_outcome c7db c7task "manual" (.ok none)
      (.completed "out " " err" 0) 50 (by decide)).1 none "out " " err" 0 rfl rfl,
   (C7_executor_outcome c7db c7task "manual" (.ok none)
      (.timedOut "boom") 50 (by decide)).2.1 none "boom" rfl rfl⟩

end FnScheduler
